import Mathlib

/-!
# WhisperGrid client protocol engine — shallow embedding

This file embeds the cryptographic protocol engine of `src/client/index.ts`
(class `Client`: self-encryption, invitations, thread engine) and settles the
frozen claims about it.

Modelling conventions:
* byte strings (plaintexts, IVs, ciphertexts, stored hex strings) are
  `List Nat` of byte / character-code values;
* JWKs and thumbprints are `Nat` key identifiers; the RFC-7638 thumbprint is
  modelled as an injective function of the public JWK;
* ECDH / ECDSA live in a concrete exponentiation group `g ^ x % P`, which has
  the Diffie–Hellman symmetry the code relies on;
* AES-GCM is modelled as an authenticated positional stream cipher: an
  invertible byte transformation plus a 16-byte tag checked on decryption,
  matching the contract `aes_gcm_decrypt(key, iv, aes_gcm_encrypt(key, iv, pt))
  = pt` and "fails on tag mismatch";
* the WebCrypto/JWS helper layer (`./utils`) and the storage adapter
  (`./GridStorage`) are not under `src/`; they are modelled from the spec
  (§4.1, §4.2, §6) as noted on each definition;
* storage mutation follows TypeScript semantics: a method that throws after a
  `setItem` leaves the write in place, so every operation returns
  `GridStorage × Except Err α` with the state threaded through failures.
-/

/-! ## Base64 (standard and url alphabets, tolerant decoding)

`Buffer.from(bytes).toString("base64")` / `toString("base64url")` and the
decoder `Buffer.from(str, "base64url")`, which tolerates both alphabets and
ignores padding, as used by `encryptToSelf` / `decryptFromSelf` /
`replyToThread` / `appendThread`.  Characters are Unicode code points. -/

/-- Standard base64 alphabet: sextet value to character code
(`A-Z`, `a-z`, `0-9`, `+`, `/`). -/
def b64StdChar (s : Nat) : Nat :=
  if s < 26 then 65 + s
  else if s < 52 then 97 + (s - 26)
  else if s < 62 then 48 + (s - 52)
  else if s = 62 then 43
  else 47

/-- Base64url alphabet: sextet value to character code
(`A-Z`, `a-z`, `0-9`, `-`, `_`). -/
def b64UrlChar (s : Nat) : Nat :=
  if s < 26 then 65 + s
  else if s < 52 then 97 + (s - 26)
  else if s < 62 then 48 + (s - 52)
  else if s = 62 then 45
  else 95

/-- Tolerant sextet lookup used by Node's base64/base64url decoder: accepts
both alphabets; `=` padding and any other character yield `none` and are
skipped. -/
def b64Val (c : Nat) : Option Nat :=
  if 65 ≤ c ∧ c ≤ 90 then some (c - 65)
  else if 97 ≤ c ∧ c ≤ 122 then some (c - 97 + 26)
  else if 48 ≤ c ∧ c ≤ 57 then some (c - 48 + 52)
  else if c = 43 ∨ c = 45 then some 62
  else if c = 47 ∨ c = 95 then some 63
  else none

/-- Split a byte stream into sextets, 3 bytes to 4 sextets, with the trailing
1- or 2-byte groups producing 2 or 3 sextets. -/
def bytesToSextets : List Nat → List Nat
  | [] => []
  | [b1] => [b1 / 4, b1 % 4 * 16]
  | [b1, b2] => [b1 / 4, b1 % 4 * 16 + b2 / 16, b2 % 16 * 4]
  | b1 :: b2 :: b3 :: rest =>
      b1 / 4 :: (b1 % 4 * 16 + b2 / 16) :: (b2 % 16 * 4 + b3 / 64) :: b3 % 64 ::
        bytesToSextets rest

/-- Reassemble bytes from sextets, 4 sextets to 3 bytes, with trailing groups
of 2 or 3 sextets producing 1 or 2 bytes; a lone trailing sextet (which a
well-formed encoder never emits) is dropped, as in Node. -/
def sextetsToBytes : List Nat → List Nat
  | [] => []
  | [_] => []
  | [s1, s2] => [s1 * 4 + s2 / 16]
  | [s1, s2, s3] => [s1 * 4 + s2 / 16, s2 % 16 * 16 + s3 / 4]
  | s1 :: s2 :: s3 :: s4 :: rest =>
      (s1 * 4 + s2 / 16) :: (s2 % 16 * 16 + s3 / 4) :: (s3 % 4 * 64 + s4) ::
        sextetsToBytes rest

/-- `Buffer.prototype.toString("base64")`: standard alphabet, `=` padding
(code 61) to a multiple of four characters. -/
def encodeBase64Std (bytes : List Nat) : List Nat :=
  let chars := (bytesToSextets bytes).map b64StdChar
  chars ++ List.replicate ((4 - chars.length % 4) % 4) 61

/-- `Buffer.prototype.toString("base64url")`: url alphabet, no padding. -/
def encodeBase64Url (bytes : List Nat) : List Nat :=
  (bytesToSextets bytes).map b64UrlChar

/-- `Buffer.from(str, "base64url")`: maps characters through the combined
lookup table (accepting both alphabets), skipping padding and foreign
characters, then packs sextets back into bytes. -/
def decodeBase64Tolerant (chars : List Nat) : List Nat :=
  sextetsToBytes (chars.filterMap b64Val)

/-! ## JS integers, hex strings, `parseInt(s, 16)` and `Number.toString(16)`

`messageId` values travel as hex strings; the engine writes them with
`Number(n).toString(16)` and reads them with `parseInt(s, 16)`.  A JS number
that may be `NaN` is modelled as `Option Int` (`none` = `NaN`); note that
`NaN === x` is false for every `x`, and `NaN + 1 = NaN`. -/

/-- Lowercase hex digit character for a value below 16, as produced by
`Number.prototype.toString(16)`. -/
def hexDigitChar (d : Nat) : Nat := if d < 10 then 48 + d else 87 + d

/-- Hex digits of a natural number, most significant first (fuel-driven
structural recursion; `fuel > n` always suffices since the argument shrinks by
a factor of 16 each step). -/
def toHexFuel : Nat → Nat → List Nat
  | 0, _ => []
  | fuel + 1, n =>
      if n < 16 then [hexDigitChar n]
      else toHexFuel fuel (n / 16) ++ [hexDigitChar (n % 16)]

/-- Hex digits of a natural number, most significant first, no leading zeros
(`(0).toString(16) = "0"`). -/
def toHexNat (n : Nat) : List Nat := toHexFuel (n + 1) n

/-- `Number(v).toString(16)`: hex digits with a `-` sign for negatives, and
the literal string `"NaN"` when the value is `NaN`. -/
def jsNumberToString16 : Option Int → List Nat
  | none => [78, 97, 78]
  | some i => if i < 0 then 45 :: toHexNat i.natAbs else toHexNat i.natAbs

/-- Value of a single hex digit character (`0-9`, `a-f`, `A-F`). -/
def hexVal (c : Nat) : Option Nat :=
  if 48 ≤ c ∧ c ≤ 57 then some (c - 48)
  else if 97 ≤ c ∧ c ≤ 102 then some (c - 87)
  else if 65 ≤ c ∧ c ≤ 70 then some (c - 55)
  else none

/-- Accumulate the longest hex-digit prefix, like `parseInt`'s digit loop. -/
def parseHexDigits : List Nat → Nat → Nat
  | [], acc => acc
  | c :: cs, acc =>
      match hexVal c with
      | some v => parseHexDigits cs (acc * 16 + v)
      | none => acc

/-- Optional leading sign, as consumed by `parseInt`. -/
def stripSign (s : List Nat) : Bool × List Nat :=
  match s with
  | [] => (false, [])
  | c :: cs =>
      if c = 45 then (true, cs)
      else if c = 43 then (false, cs)
      else (false, c :: cs)

/-- Optional `0x` / `0X` prefix, consumed by `parseInt` at radix 16. -/
def strip0x (s : List Nat) : List Nat :=
  match s with
  | c1 :: c2 :: cs => if c1 = 48 ∧ (c2 = 120 ∨ c2 = 88) then cs else c1 :: c2 :: cs
  | s => s

/-- `parseInt(s, 16)`: optional sign, optional `0x`, then the longest prefix
of hex digits; `NaN` (= `none`) when no digit is found.  Leading whitespace,
which the engine's own strings never contain, is not modelled. -/
def jsParseIntHex (s : List Nat) : Option Int :=
  let p := stripSign s
  let r := strip0x p.2
  match r with
  | [] => none
  | c :: _ =>
      if (hexVal c).isSome then
        if p.1 then some (-(parseHexDigits r 0 : Int)) else some (parseHexDigits r 0 : Int)
      else none

/-! ## Byte serialization of thread key pairs

`makeThreadKeys` stores `JSON.stringify(jwks)` self-encrypted;
`readThreadSecret` parses it back.  The pair of JWKs is serialized to bytes
through a base-256 positional code. -/

/-- Little-endian base-256 digits (fuel-driven; `fuel > n` suffices). -/
def natToBytesFuel : Nat → Nat → List Nat
  | 0, _ => []
  | fuel + 1, n => if n < 256 then [n] else n % 256 :: natToBytesFuel fuel (n / 256)

/-- Little-endian base-256 digits of a natural number. -/
def natToBytes (n : Nat) : List Nat := natToBytesFuel (n + 1) n

def bytesToNat : List Nat → Nat
  | [] => 0
  | b :: bs => b + 256 * bytesToNat bs

/-- Serialize the JWK pair `{publicKeyJWK, privateKeyJWK}` to bytes
(length-prefixed fields). -/
def encodeKeyPair (pub priv : Nat) : List Nat :=
  (natToBytes pub).length % 256 :: (natToBytes pub ++ natToBytes priv)

/-- Parse the serialized JWK pair back into (public, private). -/
def decodeKeyPair (l : List Nat) : Nat × Nat :=
  match l with
  | [] => (0, 0)
  | n :: rest => (bytesToNat (rest.take n), bytesToNat (rest.drop n))

/-! ## Diffie–Hellman key agreement and key material

Modelled from the spec (§4.1, `./utils` is not under `src/`):
`gen_ecdh` / `gen_ecdsa` key pairs and `derive_shared(priv, pub)` with the
ECDH symmetry guarantee "both sides with swapped (priv, pub) yield equal
keys".  Keys live in the exponentiation group `dhG ^ x % dhP`; a private key
is the exponent, the public JWK is the group element. -/

def dhP : Nat := 251

def dhG : Nat := 6

/-- Public JWK derived from a private key (used for both the ECDSA identity
keys and the ECDH storage / thread keys). -/
def pubKeyOf (priv : Nat) : Nat := dhG ^ priv % dhP

/-- `deriveSharedSecret(privateKey, publicKey)`: the AES key both sides agree
on. -/
def deriveSharedSecret (priv pub : Nat) : Nat := pub ^ priv % dhP

/-- RFC-7638 JWK thumbprint, modelled as an injective function of the public
JWK (the identity on key identifiers). -/
def getJWKthumbprint (jwk : Nat) : Nat := jwk

/-! ## AES-GCM

Modelled from the spec (§4.1, the crypto layer is WebCrypto, not under
`src/`): `aes_gcm_encrypt(key, iv, pt)` appends a 16-byte authentication tag,
`aes_gcm_decrypt` returns the plaintext or fails (`BadCiphertext`) on tag
mismatch.  Encryption is an invertible positional byte transformation keyed by
(key, iv); the tag is a checksum of the ciphertext under the same key. -/

/-- Positional byte masking (encryption direction). -/
def ksEnc (s : Nat) : Nat → List Nat → List Nat
  | _, [] => []
  | i, b :: bs => (b + (s + i)) % 256 :: ksEnc s (i + 1) bs

/-- Positional byte unmasking (decryption direction). -/
def ksDec (s : Nat) : Nat → List Nat → List Nat
  | _, [] => []
  | i, b :: bs => (b + 256 - (s + i) % 256) % 256 :: ksDec s (i + 1) bs

/-- 16-byte authentication tag over the ciphertext body. -/
def aesTag (s : Nat) (body : List Nat) : List Nat :=
  List.replicate 16 ((s + body.sum) % 256)

def aesGcmEncrypt (key : Nat) (iv : List Nat) (pt : List Nat) : List Nat :=
  let s := key + bytesToNat iv
  let body := ksEnc s 0 pt
  body ++ aesTag s body

def aesGcmDecrypt (key : Nat) (iv : List Nat) (ct : List Nat) : Option (List Nat) :=
  let s := key + bytesToNat iv
  if 16 ≤ ct.length then
    let body := ct.take (ct.length - 16)
    if ct.drop (ct.length - 16) = aesTag s body then some (ksDec s 0 body) else none
  else none

/-! ## JWS envelopes and signatures

Modelled from the spec (§4.2, `./utils` and `./types` are not under `src/`):
a compact JWS is a header/payload record plus a signature.  `signJWS` signs
with the private key; `verifyJWS(jws, pub)` checks the signature against
`pub`; with no key argument it uses the embedded `header.jwk` if present and
fails otherwise.  The ECDSA signature is modelled as the pair of the signer's
public key and an injective-enough digest of header and payload, so that
verification succeeds exactly for the matching public key. -/

/-- Digest of a byte/character list (fixed 64-bit width, like a truncated
hash). -/
def hashList (l : List Nat) : Nat :=
  l.foldl (fun a b => (a * 257 + (b + 1)) % 18446744073709551616) 1

def hashOpt : Option Nat → Nat
  | none => 0
  | some k => k + 1

def hashOptList : Option (List Nat) → Nat
  | none => 0
  | some l => hashList l + 1

/-- `SelfEncrypted` JWS (§4.4): header `{alg: ES384, jwk}`, payload
`{message: base64url, iv: base64, epk}`. -/
structure SelfEncrypted where
  jwk : Nat
  message : List Nat
  iv : List Nat
  epk : Nat
  sig : Nat
  deriving DecidableEq

def hashSelfEnc (jwk : Nat) (message iv : List Nat) (epk : Nat) : Nat :=
  hashList [jwk, hashList message, hashList iv, epk]

def signSelfEnc (priv jwk : Nat) (message iv : List Nat) (epk : Nat) : SelfEncrypted :=
  { jwk := jwk, message := message, iv := iv, epk := epk,
    sig := Nat.pair (pubKeyOf priv) (hashSelfEnc jwk message iv epk) }

def verifySelfEnc (pub : Nat) (se : SelfEncrypted) : Bool :=
  se.sig == Nat.pair pub (hashSelfEnc se.jwk se.message se.iv se.epk)

/-- `Invitation` JWS (§3): header `{alg, jwk}`, payload
`{messageId: hex, epk, note?, nickname?}`. -/
structure SignedInvitation where
  jwk : Nat
  messageId : List Nat
  epk : Nat
  note : Option (List Nat)
  nickname : Option (List Nat)
  sig : Nat
  deriving DecidableEq

def hashInv (jwk : Nat) (messageId : List Nat) (epk : Nat)
    (note nickname : Option (List Nat)) : Nat :=
  hashList [jwk, hashList messageId, epk, hashOptList note, hashOptList nickname]

def signInv (priv jwk : Nat) (messageId : List Nat) (epk : Nat)
    (note nickname : Option (List Nat)) : SignedInvitation :=
  { jwk := jwk, messageId := messageId, epk := epk, note := note, nickname := nickname,
    sig := Nat.pair (pubKeyOf priv) (hashInv jwk messageId epk note nickname) }

def verifyInv (pub : Nat) (inv : SignedInvitation) : Bool :=
  inv.sig == Nat.pair pub (hashInv inv.jwk inv.messageId inv.epk inv.note inv.nickname)

/-- `ReplyMessage` JWS (§3): header `{alg, jwk?}`, payload
`{re, messageId: hex, message: base64url, iv: base64, epk?}`. -/
structure ReplyJWS where
  jwk : Option Nat
  re : Nat
  messageId : List Nat
  message : List Nat
  iv : List Nat
  epk : Option Nat
  sig : Nat
  deriving DecidableEq

def hashReply (jwk : Option Nat) (re : Nat) (messageId message iv : List Nat)
    (epk : Option Nat) : Nat :=
  hashList [hashOpt jwk, re, hashList messageId, hashList message, hashList iv, hashOpt epk]

def signReply (priv : Nat) (jwk : Option Nat) (re : Nat)
    (messageId message iv : List Nat) (epk : Option Nat) : ReplyJWS :=
  { jwk := jwk, re := re, messageId := messageId, message := message, iv := iv, epk := epk,
    sig := Nat.pair (pubKeyOf priv) (hashReply jwk re messageId message iv epk) }

/-- `verifyJWS(jws, pub)`: signature check against an explicit public key. -/
def verifyReplyWith (pub : Nat) (m : ReplyJWS) : Bool :=
  m.sig == Nat.pair pub (hashReply m.jwk m.re m.messageId m.message m.iv m.epk)

/-- `verifyJWS(jws)` with no key: uses the embedded `header.jwk` when present,
fails otherwise (§4.2). -/
def verifyReplyEmbedded (m : ReplyJWS) : Bool :=
  match m.jwk with
  | some k => verifyReplyWith k m
  | none => false

/-! ## Storage adapter and client state

Modelled from the spec (§6, `./GridStorage` is not under `src/`): a key/value
store with `get` / `set` / `has` / `append`, keys split by namespace.  Each
namespace of §6 used by the engine is one association list; `setItem` is
modelled as prepending, so lookups see the newest binding, which is
observationally the overwrite semantics.  The state is threaded through every
operation, surviving thrown errors as a mutable JS object would. -/

def setA {α : Type} (k : Nat) (v : α) (l : List (Nat × α)) : List (Nat × α) :=
  (k, v) :: l

def appendA {α : Type} (k : Nat) (v : α) (l : List (Nat × List α)) : List (Nat × List α) :=
  setA k (((List.lookup k l).getD []) ++ [v]) l

/-- `ThreadInfo` record stored under `thread-info:<myThumbprint>`. -/
structure ThreadInfo where
  myThumbprint : Nat
  theirEPK : Nat
  signedInvite : SignedInvitation
  theirSignature : Nat
  deriving DecidableEq

/-- Entries of `messages:<thread>`: the signed invitation followed by reply
JWSs. -/
inductive StoredMsg where
  | invite (i : SignedInvitation)
  | reply (r : ReplyJWS)
  deriving DecidableEq

structure GridStorage where
  invitations : List (Nat × SignedInvitation)
  threadInfos : List (Nat × ThreadInfo)
  threadKeyBackups : List (Nat × SelfEncrypted)
  messageLogs : List (Nat × List StoredMsg)
  messageIds : List (Nat × List Nat)
  threadIndex : List (Nat × List Nat)
  publicKeys : List (Nat × Nat)
  deriving DecidableEq

def GridStorage.getInvitation (st : GridStorage) (k : Nat) : Option SignedInvitation :=
  List.lookup k st.invitations

def GridStorage.setInvitation (st : GridStorage) (k : Nat) (v : SignedInvitation) : GridStorage :=
  { st with invitations := setA k v st.invitations }

def GridStorage.getThreadInfo (st : GridStorage) (k : Nat) : Option ThreadInfo :=
  List.lookup k st.threadInfos

def GridStorage.setThreadInfo (st : GridStorage) (k : Nat) (v : ThreadInfo) : GridStorage :=
  { st with threadInfos := setA k v st.threadInfos }

def GridStorage.getBackup (st : GridStorage) (k : Nat) : Option SelfEncrypted :=
  List.lookup k st.threadKeyBackups

def GridStorage.setBackup (st : GridStorage) (k : Nat) (v : SelfEncrypted) : GridStorage :=
  { st with threadKeyBackups := setA k v st.threadKeyBackups }

def GridStorage.getMessages (st : GridStorage) (k : Nat) : Option (List StoredMsg) :=
  List.lookup k st.messageLogs

def GridStorage.appendMessage (st : GridStorage) (k : Nat) (v : StoredMsg) : GridStorage :=
  { st with messageLogs := appendA k v st.messageLogs }

def GridStorage.getMessageId (st : GridStorage) (k : Nat) : Option (List Nat) :=
  List.lookup k st.messageIds

def GridStorage.setMessageId (st : GridStorage) (k : Nat) (v : List Nat) : GridStorage :=
  { st with messageIds := setA k v st.messageIds }

def GridStorage.appendThreadIndex (st : GridStorage) (k : Nat) (v : Nat) : GridStorage :=
  { st with threadIndex := appendA k v st.threadIndex }

def GridStorage.setPublicKey (st : GridStorage) (k : Nat) (v : Nat) : GridStorage :=
  { st with publicKeys := setA k v st.publicKeys }

/-- A `Client` as constructed in `src/client/index.ts`: identity ECDSA pair
and storage ECDH pair (the constructor takes the four key halves; nothing
forces the public halves to match the private ones). -/
structure Client where
  idPriv : Nat
  idPub : Nat
  storPriv : Nat
  storPub : Nat
  deriving DecidableEq

def Client.thumbprint (cl : Client) : Nat := getJWKthumbprint cl.idPub

/-- The key pairs actually belong together, as `generateClient` /
`loadClient` guarantee. -/
def Client.wellFormed (cl : Client) : Prop :=
  cl.idPub = pubKeyOf cl.idPriv ∧ cl.storPub = pubKeyOf cl.storPriv

/-- Errors thrown by the engine, one tag per distinct `invariant` / `throw`
site (spec §7 names in parentheses). -/
inductive Err where
  /-- `Error encrypting message: ...` wrapper in `encryptToSelf`
  (`SelfEncryptMismatch`). -/
  | selfEncryptError
  /-- `parseJWS` verification failure (`BadSignature`). -/
  | badSignature
  /-- raw AES-GCM decryption failure (`BadCiphertext`). -/
  | badCiphertext
  /-- `Invalid invitation signature` in `replyToInvitation`. -/
  | invalidInvitationSignature
  /-- `Thread not found` (`UnknownThread` / `NotFound`). -/
  | threadNotFound
  /-- `Thread key not found` in `startThread` / `readThreadSecret`. -/
  | threadKeyNotFound
  /-- `Invalid message id` in `replyToThread`. -/
  | invalidMessageId
  /-- `Invitation not found` (`UnknownInvitation`). -/
  | invitationNotFound
  /-- `First message must have an epk` (`MalformedFirstReply`). -/
  | firstMessageNeedsEpk
  /-- the sequence invariant in `appendThread` (`OutOfOrder`). -/
  | outOfOrder
  /-- `Unable to determine public key` (`UnverifiedSigner`). -/
  | unableToDeterminePublicKey
  /-- `expected message addressed to ... to be signed with ...`
  (`BadSignature` of §4.5.4(B)). -/
  | signerMismatch
  /-- `Decrypted message mismatch` in `replyToThread`. -/
  | decryptMismatch
  /-- `Error appending thread ...` wrapper in `appendThread`. -/
  | appendDecryptFailed
  deriving DecidableEq

deriving instance DecidableEq for Except

/-- Sequencing for state-threaded fallible steps. -/
def stepBind {α β : Type} (x : GridStorage × Except Err α)
    (f : α → GridStorage → GridStorage × Except Err β) : GridStorage × Except Err β :=
  match x with
  | (st, .ok a) => f a st
  | (st, .error e) => (st, .error e)

/-! ## The protocol engine (`class Client`, `src/client/index.ts`)

Each method takes its random inputs (fresh ECDH private keys, fresh IVs)
explicitly; `window.crypto.getRandomValues` and `generateECDHKeyPair` are the
only sources of nondeterminism. -/

/-- `Client.decryptFromSelf` (lines 150–177): parse and verify the JWS against
the identity public key, derive the shared secret from the payload `epk` and
the storage private key, then AES-GCM decrypt with `iv` and `message` both
decoded as base64url. -/
def decryptFromSelf (cl : Client) (se : SelfEncrypted) : Except Err (List Nat) :=
  if verifySelfEnc cl.idPub se then
    match aesGcmDecrypt (deriveSharedSecret cl.storPriv se.epk)
        (decodeBase64Tolerant se.iv) (decodeBase64Tolerant se.message) with
    | some pt => .ok pt
    | none => .error .badCiphertext
  else .error .badSignature

/-- `Client.encryptToSelf` (lines 178–223): fresh ephemeral ECDH key, shared
secret with the storage public key, AES-GCM encrypt, emit `message` as
base64url but `iv` as standard base64, sign with the identity key, then
self-test (verify the JWS — awaited here — and decrypt it back, comparing with
the input); any self-test failure becomes `Error encrypting message`. -/
def encryptToSelf (cl : Client) (ephPriv : Nat) (iv : List Nat) (msg : List Nat) :
    Except Err SelfEncrypted :=
  let ct := aesGcmEncrypt (deriveSharedSecret ephPriv cl.storPub) iv msg
  let se := signSelfEnc cl.idPriv cl.idPub (encodeBase64Url ct) (encodeBase64Std iv)
    (pubKeyOf ephPriv)
  if verifySelfEnc se.jwk se then
    match decryptFromSelf cl se with
    | .ok pt => if pt = msg then .ok se else .error .selfEncryptError
    | .error _ => .error .selfEncryptError
  else .error .selfEncryptError

/-- `Client.makeThreadKeys` (lines 306–315): fresh thread ECDH pair,
self-encrypt the serialized JWK pair, store it under
`encrypted-thread-key:<thumbprint>`.  Returns (thumbprint, public, private). -/
def makeThreadKeys (cl : Client) (threadPriv ephPriv : Nat) (iv : List Nat)
    (st : GridStorage) : GridStorage × Except Err (Nat × Nat × Nat) :=
  let tPub := pubKeyOf threadPriv
  let tp := getJWKthumbprint tPub
  match encryptToSelf cl ephPriv iv (encodeKeyPair tPub threadPriv) with
  | .ok keyBackup => (st.setBackup tp keyBackup, .ok (tp, tPub, threadPriv))
  | .error e => (st, .error e)

/-- `Client.startThread` (lines 275–304) with `myThumbprint` supplied: check
the key backup exists, store the peer public key, the thread info, the thread
index entry, the invitation into the message log, and the starting
`message-id`. -/
def startThread (cl : Client) (signedInvite : SignedInvitation) (theirEPK theirSig : Nat)
    (messageId : List Nat) (myTp : Nat) (st : GridStorage) : GridStorage × Except Err Nat :=
  match st.getBackup myTp with
  | none => (st, .error .threadKeyNotFound)
  | some _ =>
      let st1 := st.setPublicKey (getJWKthumbprint theirSig) theirSig
      let st2 := st1.setThreadInfo myTp ⟨myTp, theirEPK, signedInvite, theirSig⟩
      let st3 := st2.appendThreadIndex cl.thumbprint myTp
      let st4 := st3.appendMessage myTp (.invite signedInvite)
      (st4.setMessageId myTp messageId, .ok myTp)

/-- `Client.readThreadSecret` (lines 317–355): load the thread info, decrypt
the stored thread key backup, and derive the shared AES key from my thread
private key and `theirEPK`.  Returns (secret, my thread public JWK). -/
def readThreadSecret (cl : Client) (tp : Nat) (st : GridStorage) :
    GridStorage × Except Err (Nat × Nat) :=
  match st.getThreadInfo tp with
  | none => (st, .error .threadNotFound)
  | some ti =>
      match st.getBackup ti.myThumbprint with
      | none => (st, .error .threadKeyNotFound)
      | some backup =>
          match decryptFromSelf cl backup with
          | .error e => (st, .error e)
          | .ok bytes =>
              let pk := decodeKeyPair bytes
              (st, .ok (deriveSharedSecret pk.2 ti.theirEPK, pk.1))

/-- Verifier selection of `Client.appendThread` (lines 483–505) for a message
whose header lacks `jwk`: the code first assigns `theirSignature` when
`re == myThumbprint`, then overwrites with the own identity key when
`re == thumbprint(theirEPK)`, so the `theirEPK` comparison takes priority. -/
def selectVerifier (cl : Client) (ti : ThreadInfo) (msg : ReplyJWS) : Option Nat :=
  if msg.jwk.isNone then
    if msg.re = getJWKthumbprint ti.theirEPK then some cl.idPub
    else if msg.re = ti.myThumbprint then some ti.theirSignature
    else none
  else none

/-- Decrypt-and-append tail of `Client.appendThread` (lines 520–542): derive
the thread secret, decode `iv` and `message` as base64url, AES-GCM decrypt
(wrapping failures in `Error appending thread`), then append the message to
the log. -/
def appendThreadDecrypt (cl : Client) (msg : ReplyJWS) (tp : Nat) (st : GridStorage) :
    GridStorage × Except Err (Nat × List Nat) :=
  stepBind (readThreadSecret cl tp st) (fun se st =>
    match aesGcmDecrypt se.1 (decodeBase64Tolerant msg.iv) (decodeBase64Tolerant msg.message) with
    | none => (st, .error .appendDecryptFailed)
    | some pt => (st.appendMessage tp (.reply msg), .ok (tp, pt)))

/-- `Client.appendThread` (lines 433–543) with a known thread thumbprint: load
the thread info; if the message does not verify by its embedded `jwk`, select
a verifier key by addressee (failing `Unable to determine public key` when
none applies, including whenever a `jwk` header is embedded), and fail with
the signer-mismatch error if that key does not verify; then decrypt and
append. -/
def appendThreadKnown (cl : Client) (msg : ReplyJWS) (tp : Nat) (st : GridStorage) :
    GridStorage × Except Err (Nat × List Nat) :=
  match st.getThreadInfo tp with
  | none => (st, .error .threadNotFound)
  | some ti =>
      if verifyReplyEmbedded msg then appendThreadDecrypt cl msg tp st
      else
        match selectVerifier cl ti msg with
        | none => (st, .error .unableToDeterminePublicKey)
        | some k =>
            if verifyReplyWith k msg then appendThreadDecrypt cl msg tp st
            else (st, .error .signerMismatch)

/-- `Client.replyToThread` (lines 357–431): read the thread secret, encrypt
the message, read and increment `message-id` (storing the new value before
anything else), build the reply (`re = thumbprint(theirEPK)`; `jwk`/`epk`
only under `selfSign`), sign it; the post-sign `invariant(verifyJWS(...))`
passes unconditionally because the promise is not awaited, so no check is
modelled; then self-decrypt and compare, and finally ingest the message via
`appendThread`. -/
def replyToThread (cl : Client) (tp : Nat) (message : List Nat) (selfSign : Bool)
    (iv : List Nat) (st : GridStorage) : GridStorage × Except Err ReplyJWS :=
  stepBind (readThreadSecret cl tp st) (fun se st =>
    let secret := se.1
    let ct := aesGcmEncrypt secret iv message
    match st.getMessageId tp with
    | none => (st, .error .invalidMessageId)
    | some stored =>
        let nextIdStr := jsNumberToString16 ((jsParseIntHex stored).map (· + 1))
        let st1 := st.setMessageId tp nextIdStr
        match st1.getThreadInfo tp with
        | none => (st1, .error .threadNotFound)
        | some ti =>
            let msg := signReply cl.idPriv (if selfSign then some cl.idPub else none)
              (getJWKthumbprint ti.theirEPK) nextIdStr (encodeBase64Url ct)
              (encodeBase64Std iv) (if selfSign then some se.2 else none)
            match aesGcmDecrypt secret iv (decodeBase64Tolerant msg.message) with
            | none => (st1, .error .badCiphertext)
            | some pt =>
                if pt = message then
                  stepBind (appendThreadKnown cl msg tp st1) (fun _ st => (st, .ok msg))
                else (st1, .error .decryptMismatch))

/-- The sequence check of `Client.appendThread` (lines 459–463):
`parseInt(reply.messageId, 16) === parseInt(invitation.messageId, 16) + 1`,
false whenever either side is `NaN`. -/
def seqCheck (replyId invId : List Nat) : Bool :=
  match jsParseIntHex replyId, jsParseIntHex invId with
  | some a, some b => a == b + 1
  | _, _ => false

/-- `Client.appendThread` (lines 433–474), dispatch on a missing
`threadThumbprint`: a header without `jwk` routes via `thread-info:<re>`
(failing `Thread not found`); a header with `jwk` bootstraps a thread from the
stored invitation — requiring `epk` in the payload, an invitation under
`payload.re`, a verifying stored invitation, and
`parseInt(messageId) === parseInt(invitationMessageId) + 1`. -/
def appendThread (cl : Client) (msg : ReplyJWS) (tpOpt : Option Nat) (st : GridStorage) :
    GridStorage × Except Err (Nat × List Nat) :=
  match tpOpt with
  | some tp => appendThreadKnown cl msg tp st
  | none =>
      match msg.jwk with
      | none =>
          if (st.getThreadInfo msg.re).isSome then appendThreadKnown cl msg msg.re st
          else (st, .error .threadNotFound)
      | some jwkKey =>
          match msg.epk with
          | none => (st, .error .firstMessageNeedsEpk)
          | some theirEPK =>
              match st.getInvitation msg.re with
              | none => (st, .error .invitationNotFound)
              | some inv =>
                  if verifyInv inv.jwk inv then
                    if seqCheck msg.messageId inv.messageId then
                      stepBind (startThread cl inv theirEPK jwkKey msg.messageId
                          (getJWKthumbprint inv.epk) st)
                        (fun tp st => appendThreadKnown cl msg tp st)
                    else (st, .error .outOfOrder)
                  else (st, .error .badSignature)

/-- `Client.createInvitation` (lines 225–256): make thread keys, build the
invitation with a random `messageId` below `MAX_MESSAGE_ID` rendered in hex
and the thread public key as `epk`, sign it, store it under
`invitation:<thumbprint(epk)>`. -/
def createInvitation (cl : Client) (threadPriv ephPriv : Nat) (ivKey : List Nat)
    (randomId : Nat) (note nickname : Option (List Nat)) (st : GridStorage) :
    GridStorage × Except Err SignedInvitation :=
  stepBind (makeThreadKeys cl threadPriv ephPriv ivKey st) (fun keys st =>
    let inv := signInv cl.idPriv cl.idPub (toHexNat randomId) keys.2.1 note nickname
    (st.setInvitation keys.1 inv, .ok inv))

/-- `Client.replyToInvitation` (lines 258–273): verify the invitation JWS,
start a thread from it (creating fresh thread keys, storing `message-id` as
the invitation's `messageId`), then `replyToThread` with `selfSign: true`. -/
def replyToInvitation (cl : Client) (inv : SignedInvitation) (message : List Nat)
    (threadPriv ephPriv : Nat) (ivKey ivMsg : List Nat) (st : GridStorage) :
    GridStorage × Except Err ReplyJWS :=
  if verifyInv inv.jwk inv then
    stepBind (makeThreadKeys cl threadPriv ephPriv ivKey st) (fun keys st =>
      stepBind (startThread cl inv inv.epk inv.jwk inv.messageId keys.1 st) (fun tp st =>
        replyToThread cl tp message true ivMsg st))
  else (st, .error .invalidInvitationSignature)

/-! ## A concrete two-client run (Alice invites, Bob replies, both converse)

Concrete key material and IVs for an end-to-end execution used by the
counterexamples and witnesses below.  Alice: identity 3 (public 216), storage
4 (public 41), thread key 8 (public 175 = thread thumbprint), backup
ephemeral 9.  Bob: identity 5 (public 246), storage 7 (public 71), thread key
10 (public 25 = thread thumbprint), backup ephemeral 11. -/

def wgAlice : Client := { idPriv := 3, idPub := 216, storPriv := 4, storPub := 41 }

def wgBob : Client := { idPriv := 5, idPub := 246, storPriv := 7, storPub := 71 }

def wgSt0 : GridStorage := ⟨[], [], [], [], [], [], []⟩

def wgIv1 : List Nat := List.replicate 12 1

def wgIv2 : List Nat := List.replicate 12 2

def wgIv3 : List Nat := List.replicate 12 3

def wgIv4 : List Nat := List.replicate 12 4

def wgIv5 : List Nat := List.replicate 12 5

/-- Alice's invitation (random `messageId` 5 = `"5"`). -/
def wgInv : SignedInvitation :=
  { jwk := 216, messageId := [53], epk := 175, note := none, nickname := none,
    sig := 4297821011493999578593000 }

/-- Alice's self-encrypted thread-key backup for thread 175. -/
def wgBackupA : SelfEncrypted :=
  { jwk := 216,
    message := [101, 67, 101, 66, 108, 53, 101, 88, 108, 53, 101, 88, 108, 53, 101, 88,
      108, 53, 101, 88, 108, 53, 101, 88, 108, 119],
    iv := [65, 81, 69, 66, 65, 81, 69, 66, 65, 81, 69, 66, 65, 81, 69, 66],
    epk := 46, sig := 53261911604752166318580045319454815905 }

/-- Bob's self-encrypted thread-key backup for thread 25. -/
def wgBackupB : SelfEncrypted :=
  { jwk := 246,
    message := [111, 98, 113, 115, 112, 54, 101, 110, 112, 54, 101, 110, 112, 54, 101,
      110, 112, 54, 101, 110, 112, 54, 101, 110, 112, 119],
    iv := [65, 103, 73, 67, 65, 103, 73, 67, 65, 103, 73, 67, 65, 103, 73, 67],
    epk := 150, sig := 108313003083022176705597974515139742490 }

/-- Bob's first reply `R1` (`messageId` 6, self-signed, carries `epk`). -/
def wgR1 : ReplyJWS :=
  { jwk := some 246, re := 175, messageId := [54],
    message := [88, 109, 67, 48, 116, 76, 83, 48, 116, 76, 83, 48, 116, 76, 83, 48, 116,
      76, 83, 48, 116, 76, 83, 48],
    iv := [65, 119, 77, 68, 65, 119, 77, 68, 65, 119, 77, 68, 65, 119, 77, 68],
    epk := some 25, sig := 169176246841551604946886305859443019910 }

/-- Alice's reply `R2` (`messageId` 7, bare header). -/
def wgR2 : ReplyJWS :=
  { jwk := none, re := 25, messageId := [55],
    message := [99, 71, 102, 79, 122, 115, 55, 79, 122, 115, 55, 79, 122, 115, 55, 79,
      122, 115, 55, 79, 122, 115, 55, 79],
    iv := [66, 65, 81, 69, 66, 65, 81, 69, 66, 65, 81, 69, 66, 65, 81, 69],
    epk := none, sig := 35530191217401353454346026112108308465 }

/-- Bob's second reply `R3`: also `messageId` 7, because `appendThread` never
advanced Bob's stored `message-id` when it ingested `R2`. -/
def wgR3 : ReplyJWS :=
  { jwk := none, re := 175, messageId := [55],
    message := [90, 50, 84, 68, 119, 56, 80, 68, 119, 56, 80, 68, 119, 56, 80, 68, 119,
      56, 80, 68, 119, 56, 80, 68],
    iv := [66, 81, 85, 70, 66, 81, 85, 70, 66, 81, 85, 70, 66, 81, 85, 70],
    epk := none, sig := 164112141418500295789308657501122224902 }

/-- Alice's thread info for thread 175. -/
def wgTIA : ThreadInfo :=
  { myThumbprint := 175, theirEPK := 25, signedInvite := wgInv, theirSignature := 246 }

/-- Bob's thread info for thread 25. -/
def wgTIB : ThreadInfo :=
  { myThumbprint := 25, theirEPK := 175, signedInvite := wgInv, theirSignature := 216 }

/-- Alice's storage after `createInvitation`. -/
def wgSt1 : GridStorage :=
  ⟨[(175, wgInv)], [], [(175, wgBackupA)], [], [], [], []⟩

/-- Bob's storage after `replyToInvitation`. -/
def wgStB1 : GridStorage :=
  ⟨[], [(25, wgTIB)], [(25, wgBackupB)],
    [(25, [.invite wgInv, .reply wgR1]), (25, [.invite wgInv])],
    [(25, [54]), (25, [53])], [(246, [25])], [(216, 216)]⟩

/-- Alice's storage after ingesting `R1`. -/
def wgSt2 : GridStorage :=
  ⟨[(175, wgInv)], [(175, wgTIA)], [(175, wgBackupA)],
    [(175, [.invite wgInv, .reply wgR1]), (175, [.invite wgInv])],
    [(175, [54])], [(216, [175])], [(246, 246)]⟩

/-- Alice's storage after sending `R2`. -/
def wgSt3 : GridStorage :=
  ⟨[(175, wgInv)], [(175, wgTIA)], [(175, wgBackupA)],
    [(175, [.invite wgInv, .reply wgR1, .reply wgR2]),
      (175, [.invite wgInv, .reply wgR1]), (175, [.invite wgInv])],
    [(175, [55]), (175, [54])], [(216, [175])], [(246, 246)]⟩

/-- Bob's storage after ingesting `R2` (note: `message-id` still 6 = `[54]`). -/
def wgStB2 : GridStorage :=
  ⟨[], [(25, wgTIB)], [(25, wgBackupB)],
    [(25, [.invite wgInv, .reply wgR1, .reply wgR2]),
      (25, [.invite wgInv, .reply wgR1]), (25, [.invite wgInv])],
    [(25, [54]), (25, [53])], [(246, [25])], [(216, 216)]⟩

/-- Bob's storage after sending `R3`. -/
def wgStB3 : GridStorage :=
  ⟨[], [(25, wgTIB)], [(25, wgBackupB)],
    [(25, [.invite wgInv, .reply wgR1, .reply wgR2, .reply wgR3]),
      (25, [.invite wgInv, .reply wgR1, .reply wgR2]),
      (25, [.invite wgInv, .reply wgR1]), (25, [.invite wgInv])],
    [(25, [55]), (25, [54]), (25, [53])], [(246, [25])], [(216, 216)]⟩

/-- Alice's storage after ingesting `R3`. -/
def wgSt4 : GridStorage :=
  ⟨[(175, wgInv)], [(175, wgTIA)], [(175, wgBackupA)],
    [(175, [.invite wgInv, .reply wgR1, .reply wgR2, .reply wgR3]),
      (175, [.invite wgInv, .reply wgR1, .reply wgR2]),
      (175, [.invite wgInv, .reply wgR1]), (175, [.invite wgInv])],
    [(175, [55]), (175, [54])], [(216, [175])], [(246, 246)]⟩

/-- Parsed `messageId` of a log entry. -/
def storedMsgId : StoredMsg → Option Int
  | .invite i => jsParseIntHex i.messageId
  | .reply r => jsParseIntHex r.messageId

/-- "Strictly increasing by 1" along a list of parsed message ids. -/
def idsIncrementByOne : List (Option Int) → Bool
  | [] => true
  | [_] => true
  | a :: b :: rest =>
      (match a, b with
       | some x, some y => y == x + 1
       | _, _ => false) && idsIncrementByOne (b :: rest)

instance (cl : Client) : Decidable cl.wellFormed :=
  inferInstanceAs (Decidable (_ ∧ _))

/-- A client whose identity key pair does not match (`idPub` 9 is not the
public key of `idPriv` 3), as the `Client` constructor permits. -/
def wgMallory : Client := { idPriv := 3, idPub := 9, storPriv := 4, storPub := 41 }

/-- A thread-key backup for thread 175 forged to verify under `wgMallory`'s
(mismatched) identity public key 9. -/
def wgBackupM : SelfEncrypted :=
  { jwk := 9,
    message := encodeBase64Url (aesGcmEncrypt (deriveSharedSecret 4 (pubKeyOf 9)) wgIv1
      (encodeKeyPair (pubKeyOf 8) 8)),
    iv := encodeBase64Std wgIv1,
    epk := pubKeyOf 9,
    sig := Nat.pair 9 (hashSelfEnc 9
      (encodeBase64Url (aesGcmEncrypt (deriveSharedSecret 4 (pubKeyOf 9)) wgIv1
        (encodeKeyPair (pubKeyOf 8) 8)))
      (encodeBase64Std wgIv1) (pubKeyOf 9)) }

/-- Thread state for `wgMallory`: thread 175 with Bob's keys as peer and
stored `message-id` 5. -/
def wgStM : GridStorage :=
  ⟨[], [(175, ⟨175, 25, wgInv, 246⟩)], [(175, wgBackupM)], [], [(175, [53])], [], []⟩

/-- An "echo" thread state for Alice: a malicious first reply echoed the
invitation's own `epk`, so `theirEPK` is Alice's own thread public key 175
and `myThumbprint = thumbprint(theirEPK) = 175`; `theirSignature` is Bob's
identity key 246. -/
def wgTIEcho : ThreadInfo :=
  { myThumbprint := 175, theirEPK := 175, signedInvite := wgInv, theirSignature := 246 }

def wgStEcho : GridStorage :=
  ⟨[], [(175, wgTIEcho)], [(175, wgBackupA)], [], [(175, [53])], [], []⟩

/-- A message addressed to `re = 175`, signed by Alice's own identity key and
encrypted under the echo thread's secret. -/
def wgEchoMsg : ReplyJWS :=
  signReply 3 none 175 [54]
    (encodeBase64Url (aesGcmEncrypt (deriveSharedSecret 8 175) wgIv3 [104]))
    (encodeBase64Std wgIv3) none

/-- Thread state for Alice whose stored `message-id` is
`"fffffffffffff"` = 4503599627370495, the floor of
`MAX_MESSAGE_ID = Number.MAX_SAFE_INTEGER / 2`. -/
def wgStBig : GridStorage :=
  ⟨[], [(175, wgTIA)], [(175, wgBackupA)], [], [(175, List.replicate 13 102)], [], []⟩

/-- The reply `replyToThread` produces from that state: `messageId`
`"10000000000000"` = 4503599627370496 ≥ MAX_MESSAGE_ID. -/
def wgBigMsg : ReplyJWS :=
  signReply 3 none 25 (49 :: List.replicate 13 48)
    (encodeBase64Url (aesGcmEncrypt (deriveSharedSecret 8 25) wgIv4 [104]))
    (encodeBase64Std wgIv4) none

theorem b64Val_stdChar (s : Nat) (h : s < 64) : b64Val (b64StdChar s) = some s := by
  revert h
  revert s
  decide

theorem b64Val_urlChar (s : Nat) (h : s < 64) : b64Val (b64UrlChar s) = some s := by
  revert h
  revert s
  decide

/-- Every sextet produced from bytes below 256 is below 64. -/
theorem bytesToSextets_lt (bytes : List Nat) (h : ∀ b ∈ bytes, b < 256) :
    ∀ s ∈ bytesToSextets bytes, s < 64 := by
  match bytes with
  | [] => intro s hs; simp [bytesToSextets] at hs
  | [b1] =>
      have hb1 := h b1 (by simp)
      intro s hs
      simp only [bytesToSextets, List.mem_cons, List.mem_singleton] at hs
      rcases hs with h' | h' | h' <;> first | omega | simp at h'
  | [b1, b2] =>
      have hb1 := h b1 (by simp)
      have hb2 := h b2 (by simp)
      intro s hs
      simp only [bytesToSextets, List.mem_cons, List.mem_singleton] at hs
      rcases hs with h' | h' | h' | h' <;> first | omega | simp at h'
  | b1 :: b2 :: b3 :: rest =>
      have hb1 := h b1 (by simp)
      have hb2 := h b2 (by simp [List.mem_cons])
      have hb3 := h b3 (by simp [List.mem_cons])
      have ih := bytesToSextets_lt rest (fun b hb => h b (by simp [List.mem_cons, hb]))
      intro s hs
      simp only [bytesToSextets, List.mem_cons] at hs
      rcases hs with h' | h' | h' | h' | h'
      · omega
      · omega
      · omega
      · omega
      · exact ih s h'

/-- Unpacking inverts packing for byte inputs below 256. -/
theorem sextetsToBytes_bytesToSextets (bytes : List Nat) (h : ∀ b ∈ bytes, b < 256) :
    sextetsToBytes (bytesToSextets bytes) = bytes := by
  match bytes with
  | [] => rfl
  | [b1] =>
      have hb1 := h b1 (by simp)
      simp only [bytesToSextets, sextetsToBytes]
      congr 1
      omega
  | [b1, b2] =>
      have hb1 := h b1 (by simp)
      have hb2 := h b2 (by simp)
      simp only [bytesToSextets, sextetsToBytes]
      congr 1
      · omega
      · congr 1
        omega
  | b1 :: b2 :: b3 :: rest =>
      have hb1 := h b1 (by simp)
      have hb2 := h b2 (by simp [List.mem_cons])
      have hb3 := h b3 (by simp [List.mem_cons])
      have ih := sextetsToBytes_bytesToSextets rest
        (fun b hb => h b (by simp [List.mem_cons, hb]))
      simp only [bytesToSextets, sextetsToBytes]
      congr 1
      · omega
      · congr 1
        · omega
        · congr 1
          omega

theorem filterMap_b64Val_std (l : List Nat) (h : ∀ s ∈ l, s < 64) :
    (l.map b64StdChar).filterMap b64Val = l := by
  induction l with
  | nil => rfl
  | cons s rest ih =>
      have hs := h s (by simp)
      simp only [List.map_cons, List.filterMap_cons, b64Val_stdChar s hs]
      rw [ih (fun x hx => h x (by simp [List.mem_cons, hx]))]

theorem filterMap_b64Val_url (l : List Nat) (h : ∀ s ∈ l, s < 64) :
    (l.map b64UrlChar).filterMap b64Val = l := by
  induction l with
  | nil => rfl
  | cons s rest ih =>
      have hs := h s (by simp)
      simp only [List.map_cons, List.filterMap_cons, b64Val_urlChar s hs]
      rw [ih (fun x hx => h x (by simp [List.mem_cons, hx]))]

/-- The tolerant decoder inverts the standard (padded) encoder: this is the
encoding mix `encryptToSelf` / `replyToThread` rely on for the IV, which is
emitted as base64 but read back with `Buffer.from(-, "base64url")`. -/
theorem decode_encodeBase64Std (bytes : List Nat) (h : ∀ b ∈ bytes, b < 256) :
    decodeBase64Tolerant (encodeBase64Std bytes) = bytes := by
  unfold decodeBase64Tolerant encodeBase64Std
  rw [List.filterMap_append]
  have hpad : (List.replicate ((4 - ((bytesToSextets bytes).map b64StdChar).length % 4) % 4)
      (61 : Nat)).filterMap b64Val = [] := by
    rw [List.filterMap_eq_nil_iff]
    intro a ha
    rw [List.eq_of_mem_replicate ha]
    rfl
  rw [hpad, List.append_nil, filterMap_b64Val_std _ (bytesToSextets_lt bytes h),
    sextetsToBytes_bytesToSextets bytes h]

/-- The tolerant decoder inverts the url-safe (unpadded) encoder, used for the
`message` (ciphertext) fields. -/
theorem decode_encodeBase64Url (bytes : List Nat) (h : ∀ b ∈ bytes, b < 256) :
    decodeBase64Tolerant (encodeBase64Url bytes) = bytes := by
  unfold decodeBase64Tolerant encodeBase64Url
  rw [filterMap_b64Val_url _ (bytesToSextets_lt bytes h),
    sextetsToBytes_bytesToSextets bytes h]

theorem stripSign_cons (c : Nat) (cs : List Nat) :
    stripSign (c :: cs) =
      if c = 45 then (true, cs) else if c = 43 then (false, cs) else (false, c :: cs) := rfl

theorem strip0x_cons2 (c1 c2 : Nat) (cs : List Nat) :
    strip0x (c1 :: c2 :: cs) =
      if c1 = 48 ∧ (c2 = 120 ∨ c2 = 88) then cs else c1 :: c2 :: cs := rfl

theorem hexVal_hexDigitChar (d : Nat) (h : d < 16) : hexVal (hexDigitChar d) = some d := by
  revert h
  revert d
  decide

theorem hexDigitChar_ge (d : Nat) : 48 ≤ hexDigitChar d := by
  unfold hexDigitChar
  by_cases h10 : d < 10
  · rw [if_pos h10]
    omega
  · rw [if_neg h10]
    omega

theorem toHexFuel_ne_nil (fuel n : Nat) (h : n < fuel) : toHexFuel fuel n ≠ [] := by
  match fuel with
  | 0 => omega
  | fuel + 1 =>
      by_cases h16 : n < 16
      · simp [toHexFuel, h16]
      · simp [toHexFuel, h16]

theorem toHexNat_ne_nil (n : Nat) : toHexNat n ≠ [] :=
  toHexFuel_ne_nil (n + 1) n (by omega)

theorem toHexFuel_mem_digit (fuel : Nat) :
    ∀ n, n < fuel → ∀ c ∈ toHexFuel fuel n, ∃ d, d < 16 ∧ c = hexDigitChar d := by
  induction fuel with
  | zero => omega
  | succ fuel ih =>
      intro n h
      by_cases h16 : n < 16
      · simp only [toHexFuel, if_pos h16, List.mem_singleton]
        intro c hc
        exact ⟨n, h16, hc⟩
      · simp only [toHexFuel, if_neg h16, List.mem_append, List.mem_singleton]
        intro c hc
        rcases hc with hc | hc
        · exact ih (n / 16) (by omega) c hc
        · exact ⟨n % 16, Nat.mod_lt n (by omega), hc⟩

theorem toHexNat_mem_digit (n : Nat) :
    ∀ c ∈ toHexNat n, ∃ d, d < 16 ∧ c = hexDigitChar d :=
  toHexFuel_mem_digit (n + 1) n (by omega)

theorem toHexFuel_head_pos (fuel : Nat) :
    ∀ n, n < fuel → 0 < n → ∀ c cs, toHexFuel fuel n = c :: cs → 49 ≤ c := by
  induction fuel with
  | zero => omega
  | succ fuel ih =>
      intro n h hn
      by_cases h16 : n < 16
      · simp only [toHexFuel, if_pos h16]
        intro c cs hc
        injection hc with h1 _
        subst h1
        unfold hexDigitChar
        by_cases h10 : n < 10
        · rw [if_pos h10]
          omega
        · rw [if_neg h10]
          omega
      · simp only [toHexFuel, if_neg h16]
        intro c cs hc
        obtain ⟨c', cs', hcons⟩ :=
          List.exists_cons_of_ne_nil (toHexFuel_ne_nil fuel (n / 16) (by omega))
        rw [hcons, List.cons_append] at hc
        injection hc with h1 _
        subst h1
        exact ih (n / 16) (by omega) (by omega) c' cs' hcons

theorem toHexNat_head_pos (n : Nat) (hn : 0 < n) :
    ∀ c cs, toHexNat n = c :: cs → 49 ≤ c :=
  toHexFuel_head_pos (n + 1) n (by omega) hn

theorem parseHexDigits_append (l1 l2 : List Nat) (acc : Nat)
    (h : ∀ c ∈ l1, (hexVal c).isSome) :
    parseHexDigits (l1 ++ l2) acc = parseHexDigits l2 (parseHexDigits l1 acc) := by
  induction l1 generalizing acc with
  | nil => rfl
  | cons c cs ih =>
      have hc := h c (by simp)
      obtain ⟨v, hv⟩ := Option.isSome_iff_exists.mp hc
      simp only [List.cons_append, parseHexDigits, hv]
      exact ih (acc * 16 + v) (fun x hx => h x (by simp [List.mem_cons, hx]))

theorem parseHexDigits_toHexFuel (fuel : Nat) :
    ∀ n acc, n < fuel →
      parseHexDigits (toHexFuel fuel n) acc = acc * 16 ^ (toHexFuel fuel n).length + n := by
  induction fuel with
  | zero => omega
  | succ fuel ih =>
      intro n acc h
      by_cases h16 : n < 16
      · simp only [toHexFuel, if_pos h16, parseHexDigits, hexVal_hexDigitChar n h16,
          List.length_singleton, pow_one]
      · simp only [toHexFuel, if_neg h16]
        rw [parseHexDigits_append _ _ _ (by
          intro c hc
          obtain ⟨d, hd, rfl⟩ := toHexFuel_mem_digit fuel (n / 16) (by omega) c hc
          simp [hexVal_hexDigitChar d hd])]
        rw [ih (n / 16) acc (by omega)]
        simp only [parseHexDigits, hexVal_hexDigitChar (n % 16) (Nat.mod_lt n (by omega)),
          List.length_append, List.length_singleton]
        rw [pow_succ]
        have hn : n / 16 * 16 + n % 16 = n := by omega
        calc (acc * 16 ^ (toHexFuel fuel (n / 16)).length + n / 16) * 16 + n % 16
            = acc * (16 ^ (toHexFuel fuel (n / 16)).length * 16) +
                (n / 16 * 16 + n % 16) := by ring
          _ = acc * (16 ^ (toHexFuel fuel (n / 16)).length * 16) + n := by rw [hn]

theorem parseHexDigits_toHexNat (n acc : Nat) :
    parseHexDigits (toHexNat n) acc = acc * 16 ^ (toHexNat n).length + n :=
  parseHexDigits_toHexFuel (n + 1) n acc (by omega)

theorem strip0x_toHexNat (n : Nat) : strip0x (toHexNat n) = toHexNat n := by
  obtain ⟨c, cs, hcons⟩ := List.exists_cons_of_ne_nil (toHexNat_ne_nil n)
  rw [hcons]
  cases cs with
  | nil => rfl
  | cons c2 cs' =>
      rw [strip0x_cons2]
      rcases Nat.eq_zero_or_pos n with hn0 | hn0
      · exfalso
        subst hn0
        have h0 : toHexNat 0 = [48] := rfl
        rw [h0] at hcons
        injection hcons with _ h2
        exact absurd h2.symm (List.cons_ne_nil _ _)
      · have h49 := toHexNat_head_pos n hn0 c (c2 :: cs') hcons
        rw [if_neg (by omega)]

theorem jsParseIntHex_toHexNat (n : Nat) : jsParseIntHex (toHexNat n) = some (n : Int) := by
  obtain ⟨c, cs, hcons⟩ := List.exists_cons_of_ne_nil (toHexNat_ne_nil n)
  obtain ⟨d, hd, hcd⟩ := toHexNat_mem_digit n c (by rw [hcons]; simp)
  have hge : 48 ≤ c := hcd ▸ hexDigitChar_ge d
  have hsign : stripSign (toHexNat n) = (false, toHexNat n) := by
    rw [hcons, stripSign_cons, if_neg (by omega), if_neg (by omega)]
  simp only [jsParseIntHex, hsign, strip0x_toHexNat]
  rw [hcons]
  subst hcd
  simp only [hexVal_hexDigitChar d hd, Option.isSome_some, if_true, Bool.false_eq_true,
    if_false]
  rw [← hcons, parseHexDigits_toHexNat n 0]
  simp

/-- The engine's hex round trip: `parseInt(Number(i).toString(16), 16) = i`
for every integer id. -/
theorem jsParseIntHex_toString (i : Int) :
    jsParseIntHex (jsNumberToString16 (some i)) = some i := by
  simp only [jsNumberToString16]
  by_cases hneg : i < 0
  · rw [if_pos hneg]
    obtain ⟨c, cs, hcons⟩ := List.exists_cons_of_ne_nil (toHexNat_ne_nil i.natAbs)
    obtain ⟨d, hd, hcd⟩ := toHexNat_mem_digit i.natAbs c (by rw [hcons]; simp)
    have hsign : stripSign (45 :: toHexNat i.natAbs) = (true, toHexNat i.natAbs) := by
      rw [stripSign_cons, if_pos rfl]
    simp only [jsParseIntHex, hsign, strip0x_toHexNat]
    rw [hcons]
    subst hcd
    simp only [hexVal_hexDigitChar d hd, Option.isSome_some, if_true]
    rw [← hcons, parseHexDigits_toHexNat i.natAbs 0]
    simp only [Nat.zero_mul, Nat.zero_add]
    congr 1
    omega
  · rw [if_neg hneg]
    rw [jsParseIntHex_toHexNat i.natAbs]
    congr 1
    omega

theorem bytesToNat_natToBytesFuel (fuel : Nat) :
    ∀ n, n < fuel → bytesToNat (natToBytesFuel fuel n) = n := by
  induction fuel with
  | zero => omega
  | succ fuel ih =>
      intro n h
      by_cases h256 : n < 256
      · simp [natToBytesFuel, if_pos h256, bytesToNat]
      · simp only [natToBytesFuel, if_neg h256, bytesToNat]
        rw [ih (n / 256) (by omega)]
        omega

theorem bytesToNat_natToBytes (n : Nat) : bytesToNat (natToBytes n) = n :=
  bytesToNat_natToBytesFuel (n + 1) n (by omega)

theorem natToBytesFuel_lt (fuel : Nat) :
    ∀ n, n < fuel → ∀ b ∈ natToBytesFuel fuel n, b < 256 := by
  induction fuel with
  | zero => omega
  | succ fuel ih =>
      intro n h
      by_cases h256 : n < 256
      · simp only [natToBytesFuel, if_pos h256, List.mem_singleton]
        intro b hb
        omega
      · simp only [natToBytesFuel, if_neg h256, List.mem_cons]
        intro b hb
        rcases hb with hb | hb
        · omega
        · exact ih (n / 256) (by omega) b hb

theorem natToBytes_lt (n : Nat) : ∀ b ∈ natToBytes n, b < 256 :=
  natToBytesFuel_lt (n + 1) n (by omega)

theorem decodeKeyPair_encodeKeyPair (pub priv : Nat)
    (h : (natToBytes pub).length < 256) :
    decodeKeyPair (encodeKeyPair pub priv) = (pub, priv) := by
  unfold encodeKeyPair decodeKeyPair
  simp only [Nat.mod_eq_of_lt h, List.take_left, List.drop_left, bytesToNat_natToBytes]

theorem encodeKeyPair_lt (pub priv : Nat) : ∀ b ∈ encodeKeyPair pub priv, b < 256 := by
  intro b hb
  unfold encodeKeyPair at hb
  rcases List.mem_cons.mp hb with hb | hb
  · subst hb
    exact Nat.mod_lt _ (by omega)
  · rcases List.mem_append.mp hb with hb | hb
    · exact natToBytes_lt pub b hb
    · exact natToBytes_lt priv b hb

theorem natToBytes_length_lt (x : Nat) (hx : x < 256) : (natToBytes x).length < 256 := by
  unfold natToBytes natToBytesFuel
  rw [if_pos hx]
  simp

/-- ECDH symmetry (§8 "ECDH symmetry"): the secret derived from my private key
and your public key equals the one from your private key and my public key. -/
theorem deriveSharedSecret_symm (a b : Nat) :
    deriveSharedSecret a (pubKeyOf b) = deriveSharedSecret b (pubKeyOf a) := by
  unfold deriveSharedSecret pubKeyOf
  conv_lhs => rw [← Nat.pow_mod]
  conv_rhs => rw [← Nat.pow_mod]
  rw [← pow_mul, ← pow_mul, Nat.mul_comm]

theorem pubKeyOf_lt_256 (x : Nat) : pubKeyOf x < 256 := by
  have h := Nat.mod_lt (dhG ^ x) (show 0 < dhP by decide)
  have h2 : dhP = 251 := rfl
  unfold pubKeyOf
  omega

theorem ksDec_ksEnc (s : Nat) (bs : List Nat) (h : ∀ b ∈ bs, b < 256) :
    ∀ i, ksDec s i (ksEnc s i bs) = bs := by
  induction bs with
  | nil => intro i; rfl
  | cons b rest ih =>
      intro i
      have hb := h b (by simp)
      simp only [ksEnc, ksDec]
      congr 1
      · omega
      · exact ih (fun x hx => h x (by simp [List.mem_cons, hx])) (i + 1)

theorem ksEnc_lt (s : Nat) (bs : List Nat) : ∀ i, ∀ c ∈ ksEnc s i bs, c < 256 := by
  induction bs with
  | nil => intro i c hc; simp [ksEnc] at hc
  | cons b rest ih =>
      intro i c hc
      simp only [ksEnc, List.mem_cons] at hc
      rcases hc with hc | hc
      · omega
      · exact ih (i + 1) c hc

theorem ksEnc_length (s : Nat) (bs : List Nat) : ∀ i, (ksEnc s i bs).length = bs.length := by
  induction bs with
  | nil => intro i; rfl
  | cons b rest ih => intro i; simp [ksEnc, ih (i + 1)]

/-- AES-GCM round trip: decryption with the same key and IV recovers the
plaintext. -/
theorem aesGcmDecrypt_encrypt (key : Nat) (iv : List Nat) (pt : List Nat)
    (h : ∀ b ∈ pt, b < 256) :
    aesGcmDecrypt key iv (aesGcmEncrypt key iv pt) = some pt := by
  unfold aesGcmDecrypt aesGcmEncrypt
  simp only [List.length_append, aesTag, List.length_replicate]
  have hlen : (ksEnc (key + bytesToNat iv) 0 pt).length + 16 - 16 =
      (ksEnc (key + bytesToNat iv) 0 pt).length := by omega
  rw [if_pos (by omega)]
  rw [hlen, List.take_left, List.drop_left]
  rw [if_pos rfl, ksDec_ksEnc _ _ h 0]

/-- Every byte of an AES-GCM ciphertext is below 256 (so it survives the
base64 round trip). -/
theorem aesGcmEncrypt_lt (key : Nat) (iv : List Nat) (pt : List Nat) :
    ∀ c ∈ aesGcmEncrypt key iv pt, c < 256 := by
  unfold aesGcmEncrypt
  intro c hc
  simp only [List.mem_append, aesTag, List.mem_replicate] at hc
  rcases hc with hc | hc
  · exact ksEnc_lt _ _ 0 c hc
  · omega

@[simp] theorem stepBind_ok {α β : Type} (st : GridStorage) (a : α)
    (f : α → GridStorage → GridStorage × Except Err β) :
    stepBind (st, .ok a) f = f a st := rfl

@[simp] theorem stepBind_err {α β : Type} (st : GridStorage) (e : Err)
    (f : α → GridStorage → GridStorage × Except Err β) :
    stepBind (st, .error e) f = (st, .error e) := rfl

/-! ## Basic facts about the engine operations -/

theorem decryptFromSelf_err (cl : Client) (se : SelfEncrypted) (e : Err)
    (h : decryptFromSelf cl se = .error e) :
    e = .badSignature ∨ e = .badCiphertext := by
  unfold decryptFromSelf at h
  split at h
  · split at h
    · simp at h
    · injection h with h'
      exact Or.inr h'.symm
  · injection h with h'
    exact Or.inl h'.symm

theorem readThreadSecret_state (cl : Client) (tp : Nat) (st : GridStorage) :
    (readThreadSecret cl tp st).1 = st := by
  unfold readThreadSecret
  split
  · rfl
  · split
    · rfl
    · split
      · rfl
      · rfl

theorem readThreadSecret_err (cl : Client) (tp : Nat) (st st2 : GridStorage) (e : Err)
    (h : readThreadSecret cl tp st = (st2, .error e)) :
    e = .threadNotFound ∨ e = .threadKeyNotFound ∨ e = .badSignature ∨ e = .badCiphertext := by
  unfold readThreadSecret at h
  split at h
  · injection h with h1 h2
    injection h2 with h3
    exact Or.inl h3.symm
  · split at h
    · injection h with h1 h2
      injection h2 with h3
      exact Or.inr (Or.inl h3.symm)
    · split at h
      · rename_i e0 heq
        injection h with h1 h2
        injection h2 with h3
        rcases decryptFromSelf_err cl _ e0 heq with h4 | h4 <;> rw [← h3, h4]
        · exact Or.inr (Or.inr (Or.inl rfl))
        · exact Or.inr (Or.inr (Or.inr rfl))
      · injection h with h1 h2
        simp at h2

theorem appendThreadDecrypt_err (cl : Client) (msg : ReplyJWS) (tp : Nat)
    (st st2 : GridStorage) (e : Err)
    (h : appendThreadDecrypt cl msg tp st = (st2, .error e)) :
    st2 = st ∧ (e = .threadNotFound ∨ e = .threadKeyNotFound ∨ e = .badSignature ∨
      e = .badCiphertext ∨ e = .appendDecryptFailed) := by
  unfold appendThreadDecrypt at h
  rcases hr : readThreadSecret cl tp st with ⟨st0, r0⟩
  have hst0 : st0 = st := by
    have := readThreadSecret_state cl tp st
    rw [hr] at this
    exact this
  rw [hst0] at hr
  rw [hr] at h
  cases r0 with
  | error e0 =>
      rw [stepBind_err] at h
      injection h with h1 h2
      injection h2 with h3
      subst h3
      refine ⟨h1.symm, ?_⟩
      rcases readThreadSecret_err cl tp st st e0 hr with h4 | h4 | h4 | h4 <;> rw [h4] <;> tauto
  | ok se =>
      rw [stepBind_ok] at h
      split at h
      · injection h with h1 h2
        injection h2 with h3
        subst h3
        exact ⟨h1.symm, by tauto⟩
      · injection h with h1 h2
        simp at h2

theorem appendThreadDecrypt_ok (cl : Client) (msg : ReplyJWS) (tp : Nat)
    (st st2 : GridStorage) (r : Nat × List Nat)
    (h : appendThreadDecrypt cl msg tp st = (st2, .ok r)) :
    st2 = st.appendMessage tp (.reply msg) := by
  unfold appendThreadDecrypt at h
  rcases hr : readThreadSecret cl tp st with ⟨st0, r0⟩
  have hst0 : st0 = st := by
    have := readThreadSecret_state cl tp st
    rw [hr] at this
    exact this
  rw [hst0] at hr
  rw [hr] at h
  cases r0 with
  | error e0 =>
      rw [stepBind_err] at h
      injection h with h1 h2
      simp at h2
  | ok se =>
      rw [stepBind_ok] at h
      split at h
      · injection h with h1 h2
        simp at h2
      · injection h with h1 h2
        exact h1.symm

theorem appendThreadKnown_err (cl : Client) (msg : ReplyJWS) (tp : Nat)
    (st st2 : GridStorage) (e : Err)
    (h : appendThreadKnown cl msg tp st = (st2, .error e)) :
    st2 = st ∧ e ≠ .outOfOrder ∧ e ≠ .decryptMismatch ∧ e ≠ .invalidMessageId := by
  unfold appendThreadKnown at h
  split at h
  · injection h with h1 h2
    injection h2 with h3
    subst h3
    exact ⟨h1.symm, by decide, by decide, by decide⟩
  · split at h
    · rcases appendThreadDecrypt_err cl msg tp st st2 e h with ⟨h1, h2⟩
      refine ⟨h1, ?_, ?_, ?_⟩ <;> rcases h2 with h3 | h3 | h3 | h3 | h3 <;> rw [h3] <;> decide
    · split at h
      · injection h with h1 h2
        injection h2 with h3
        subst h3
        exact ⟨h1.symm, by decide, by decide, by decide⟩
      · split at h
        · rcases appendThreadDecrypt_err cl msg tp st st2 e h with ⟨h1, h2⟩
          refine ⟨h1, ?_, ?_, ?_⟩ <;> rcases h2 with h3 | h3 | h3 | h3 | h3 <;> rw [h3] <;> decide
        · injection h with h1 h2
          injection h2 with h3
          subst h3
          exact ⟨h1.symm, by decide, by decide, by decide⟩

theorem appendThreadKnown_signerMismatch (cl : Client) (msg : ReplyJWS) (tp : Nat)
    (st st2 : GridStorage)
    (h : appendThreadKnown cl msg tp st = (st2, .error .signerMismatch)) :
    msg.jwk = none := by
  unfold appendThreadKnown at h
  split at h
  · injection h with h1 h2
    injection h2 with h3
    simp at h3
  · split at h
    · rcases appendThreadDecrypt_err cl msg tp st st2 _ h with ⟨_, h2⟩
      rcases h2 with h3 | h3 | h3 | h3 | h3 <;> simp at h3
    · split at h
      · injection h with h1 h2
        injection h2 with h3
        simp at h3
      · split at h
        · rcases appendThreadDecrypt_err cl msg tp st st2 _ h with ⟨_, h2⟩
          rcases h2 with h3 | h3 | h3 | h3 | h3 <;> simp at h3
        · rename_i ti hsel k heq hv
          unfold selectVerifier at heq
          split at heq
          · exact Option.isNone_iff_eq_none.mp (by assumption)
          · simp at heq

theorem selectVerifier_none_jwk (cl : Client) (ti : ThreadInfo) (msg : ReplyJWS)
    (hjwk : msg.jwk = none) :
    selectVerifier cl ti msg =
      (if msg.re = getJWKthumbprint ti.theirEPK then some cl.idPub
       else if msg.re = ti.myThumbprint then some ti.theirSignature else none) := by
  unfold selectVerifier
  rw [hjwk]
  rfl

theorem selectVerifier_some_jwk (cl : Client) (ti : ThreadInfo) (msg : ReplyJWS) (k : Nat)
    (hjwk : msg.jwk = some k) : selectVerifier cl ti msg = none := by
  unfold selectVerifier
  rw [hjwk]
  rfl

/-- `appendThreadKnown` unfolded once the thread info is found. -/
theorem appendThreadKnown_eq_some (cl : Client) (msg : ReplyJWS) (tp : Nat)
    (st : GridStorage) (ti : ThreadInfo) (hti : st.getThreadInfo tp = some ti) :
    appendThreadKnown cl msg tp st =
      (if verifyReplyEmbedded msg then appendThreadDecrypt cl msg tp st
       else
         match selectVerifier cl ti msg with
         | none => (st, .error .unableToDeterminePublicKey)
         | some k =>
             if verifyReplyWith k msg then appendThreadDecrypt cl msg tp st
             else (st, .error .signerMismatch)) := by
  unfold appendThreadKnown
  rw [hti]

/-- With a thread found, no embedded `jwk` and no applicable verifier, the
call fails `Unable to determine public key` with storage unchanged. -/
theorem appendThreadKnown_sel_none (cl : Client) (msg : ReplyJWS) (tp : Nat)
    (st : GridStorage) (ti : ThreadInfo) (hti : st.getThreadInfo tp = some ti)
    (hjwk : msg.jwk = none) (hsel : selectVerifier cl ti msg = none) :
    appendThreadKnown cl msg tp st = (st, .error .unableToDeterminePublicKey) := by
  rw [appendThreadKnown_eq_some cl msg tp st ti hti]
  have hemb : verifyReplyEmbedded msg = false := by
    unfold verifyReplyEmbedded
    rw [hjwk]
  rw [hemb, hsel]
  simp

/-- With a thread found, no embedded `jwk` and a selected verifier key, the
call verifies with that key, failing with the signer-mismatch error
otherwise. -/
theorem appendThreadKnown_sel_some (cl : Client) (msg : ReplyJWS) (tp : Nat)
    (st : GridStorage) (ti : ThreadInfo) (k : Nat) (hti : st.getThreadInfo tp = some ti)
    (hjwk : msg.jwk = none) (hsel : selectVerifier cl ti msg = some k) :
    appendThreadKnown cl msg tp st =
      (if verifyReplyWith k msg then appendThreadDecrypt cl msg tp st
       else (st, .error .signerMismatch)) := by
  rw [appendThreadKnown_eq_some cl msg tp st ti hti]
  have hemb : verifyReplyEmbedded msg = false := by
    unfold verifyReplyEmbedded
    rw [hjwk]
  rw [hemb, hsel]
  simp

/-- With a thread found and an embedded `jwk` that does not verify, the call
fails `Unable to determine public key` with storage unchanged. -/
theorem appendThreadKnown_embedded_bad (cl : Client) (msg : ReplyJWS) (tp : Nat)
    (st : GridStorage) (ti : ThreadInfo) (k : Nat)
    (hti : st.getThreadInfo tp = some ti) (hk : msg.jwk = some k)
    (hv : verifyReplyWith k msg = false) :
    appendThreadKnown cl msg tp st = (st, .error .unableToDeterminePublicKey) := by
  rw [appendThreadKnown_eq_some cl msg tp st ti hti]
  have hemb : verifyReplyEmbedded msg = false := by
    unfold verifyReplyEmbedded
    rw [hk]
    exact hv
  rw [hemb, selectVerifier_some_jwk cl ti msg k hk]
  simp

/-- A message addressed to `thumbprint(theirEPK)` whose header is empty or
carries the client's own identity key is accepted only if it verifies under
the client's identity public key. -/
theorem appendThreadKnown_ok_verify (cl : Client) (msg : ReplyJWS) (tp : Nat)
    (st st2 : GridStorage) (r : Nat × List Nat) (ti : ThreadInfo)
    (hti : st.getThreadInfo tp = some ti)
    (hre : msg.re = getJWKthumbprint ti.theirEPK)
    (hsig : ∀ k, msg.jwk = some k → k = cl.idPub)
    (h : appendThreadKnown cl msg tp st = (st2, .ok r)) :
    verifyReplyWith cl.idPub msg = true := by
  cases hjwk : msg.jwk with
  | none =>
      have hsel : selectVerifier cl ti msg = some cl.idPub := by
        rw [selectVerifier_none_jwk cl ti msg hjwk, if_pos hre]
      rw [appendThreadKnown_sel_some cl msg tp st ti cl.idPub hti hjwk hsel] at h
      cases hv : verifyReplyWith cl.idPub msg
      · rw [hv] at h
        simp at h
      · rfl
  | some k =>
      have hk := hsig k hjwk
      rw [appendThreadKnown_eq_some cl msg tp st ti hti] at h
      have hemb : verifyReplyEmbedded msg = verifyReplyWith k msg := by
        unfold verifyReplyEmbedded
        rw [hjwk]
      rw [hemb] at h
      cases hv : verifyReplyWith k msg
      · rw [hv] at h
        simp only [Bool.false_eq_true, if_false] at h
        rw [selectVerifier_some_jwk cl ti msg k hjwk] at h
        simp at h
      · rw [← hk]
        exact hv

theorem stepBind_ok_inv {α β : Type} (x : GridStorage × Except Err α)
    (f : α → GridStorage → GridStorage × Except Err β) (st' : GridStorage) (b : β)
    (h : stepBind x f = (st', .ok b)) :
    ∃ st0 a, x = (st0, .ok a) ∧ f a st0 = (st', .ok b) := by
  rcases x with ⟨st0, r0⟩
  cases r0 with
  | error e0 =>
      rw [stepBind_err] at h
      injection h with h1 h2
      simp at h2
  | ok a =>
      rw [stepBind_ok] at h
      exact ⟨st0, a, rfl, h⟩

/-- Inversion for a successful `replyToThread`: it read the thread secret,
read and re-stored the incremented `message-id` (before signing), built the
reply exactly from those ingredients, and ingested it via `appendThread`. -/
theorem replyToThread_ok_inv (cl : Client) (tp : Nat) (m : List Nat) (ss : Bool)
    (iv : List Nat) (st st' : GridStorage) (msg : ReplyJWS)
    (h : replyToThread cl tp m ss iv st = (st', .ok msg)) :
    ∃ (se : Nat × Nat) (stored : List Nat) (ti : ThreadInfo) (r : Nat × List Nat),
      readThreadSecret cl tp st = (st, .ok se) ∧
      st.getMessageId tp = some stored ∧
      (st.setMessageId tp
          (jsNumberToString16 ((jsParseIntHex stored).map (· + 1)))).getThreadInfo tp =
        some ti ∧
      msg = signReply cl.idPriv (if ss then some cl.idPub else none)
          (getJWKthumbprint ti.theirEPK)
          (jsNumberToString16 ((jsParseIntHex stored).map (· + 1)))
          (encodeBase64Url (aesGcmEncrypt se.1 iv m)) (encodeBase64Std iv)
          (if ss then some se.2 else none) ∧
      appendThreadKnown cl msg tp
          (st.setMessageId tp (jsNumberToString16 ((jsParseIntHex stored).map (· + 1)))) =
        (st', .ok r) := by
  unfold replyToThread at h
  rcases hr : readThreadSecret cl tp st with ⟨st0, r0⟩
  have hst0 : st0 = st := by
    have := readThreadSecret_state cl tp st
    rw [hr] at this
    exact this
  rw [hst0] at hr
  rw [hr] at h
  cases r0 with
  | error e0 =>
      rw [stepBind_err] at h
      injection h with h1 h2
      simp at h2
  | ok se =>
      simp only [stepBind_ok] at h
      split at h
      · injection h with h1 h2
        simp at h2
      · rename_i stored hmid
        split at h
        · injection h with h1 h2
          simp at h2
        · rename_i ti hti
          split at h
          · injection h with h1 h2
            simp at h2
          · rename_i pt hdec
            split at h
            · rename_i hpt
              obtain ⟨stA, rA, hak, hres⟩ := stepBind_ok_inv _ _ _ _ h
              injection hres with hres1 hres2
              injection hres2 with hres3
              refine ⟨se, stored, ti, rA, by rw [hst0], hmid, hti, hres3.symm, ?_⟩
              rw [← hres3, ← hres1]
              exact hak
            · injection h with h1 h2
              simp at h2

theorem stepBind_err_inv {α β : Type} (x : GridStorage × Except Err α)
    (f : α → GridStorage → GridStorage × Except Err β) (st' : GridStorage) (e : Err)
    (h : stepBind x f = (st', .error e)) :
    x = (st', .error e) ∨ ∃ st0 a, x = (st0, .ok a) ∧ f a st0 = (st', .error e) := by
  rcases x with ⟨st0, r0⟩
  cases r0 with
  | error e0 =>
      rw [stepBind_err] at h
      injection h with h1 h2
      injection h2 with h3
      subst h1
      subst h3
      exact Or.inl rfl
  | ok a =>
      rw [stepBind_ok] at h
      exact Or.inr ⟨st0, a, rfl, h⟩

/-- Inversion for `replyToThread` failing after the signature was produced
(decrypt-mismatch or any failure inside the final `appendThread`): the
incremented `message-id` is already committed, and nothing else changed. -/
theorem replyToThread_err_inv (cl : Client) (tp : Nat) (m : List Nat) (ss : Bool)
    (iv : List Nat) (st st' : GridStorage) (e : Err)
    (h : replyToThread cl tp m ss iv st = (st', .error e))
    (he : e = .decryptMismatch ∨ e = .unableToDeterminePublicKey ∨ e = .signerMismatch ∨
      e = .appendDecryptFailed) :
    ∃ stored,
      st.getMessageId tp = some stored ∧
      st' = st.setMessageId tp (jsNumberToString16 ((jsParseIntHex stored).map (· + 1))) := by
  unfold replyToThread at h
  rcases hr : readThreadSecret cl tp st with ⟨st0, r0⟩
  have hst0 : st0 = st := by
    have := readThreadSecret_state cl tp st
    rw [hr] at this
    exact this
  rw [hst0] at hr
  rw [hr] at h
  cases r0 with
  | error e0 =>
      rw [stepBind_err] at h
      injection h with h1 h2
      injection h2 with h3
      rcases readThreadSecret_err cl tp st st e0 hr with h4 | h4 | h4 | h4 <;>
        rw [← h3, h4] at he <;> rcases he with h5 | h5 | h5 | h5 <;> simp at h5
  | ok se =>
      simp only [stepBind_ok] at h
      split at h
      · injection h with h1 h2
        injection h2 with h3
        rw [← h3] at he
        rcases he with h5 | h5 | h5 | h5 <;> simp at h5
      · rename_i stored hmid
        split at h
        · injection h with h1 h2
          injection h2 with h3
          rw [← h3] at he
          rcases he with h5 | h5 | h5 | h5 <;> simp at h5
        · rename_i ti hti
          split at h
          · injection h with h1 h2
            injection h2 with h3
            rw [← h3] at he
            rcases he with h5 | h5 | h5 | h5 <;> simp at h5
          · rename_i pt hdec
            split at h
            · rename_i hpt
              rcases stepBind_err_inv _ _ _ _ h with hc | ⟨stA, a, hak, hres⟩
              · obtain ⟨h1, _, _, _⟩ := appendThreadKnown_err _ _ _ _ _ _ hc
                exact ⟨stored, hmid, h1⟩
              · injection hres with hres1 hres2
                simp at hres2
            · injection h with h1 h2
              exact ⟨stored, hmid, h1.symm⟩

theorem verifySelfEnc_signSelfEnc_self (priv jwk : Nat) (msgB ivB : List Nat) (epk : Nat) :
    verifySelfEnc (pubKeyOf priv) (signSelfEnc priv jwk msgB ivB epk) = true := by
  unfold verifySelfEnc signSelfEnc
  simp

/-- Decrypting a well-formed self-encrypted envelope recovers the plaintext:
ECDH symmetry aligns the secrets, and the base64url decoder tolerates the
standard-base64 IV. -/
theorem decryptFromSelf_signSelfEnc (cl : Client) (e : Nat) (iv msg : List Nat)
    (hwf : cl.wellFormed) (hm : ∀ b ∈ msg, b < 256) (hiv : ∀ b ∈ iv, b < 256) :
    decryptFromSelf cl (signSelfEnc cl.idPriv cl.idPub
      (encodeBase64Url (aesGcmEncrypt (deriveSharedSecret e cl.storPub) iv msg))
      (encodeBase64Std iv) (pubKeyOf e)) = .ok msg := by
  obtain ⟨hid, hstor⟩ := hwf
  unfold decryptFromSelf
  have hv : verifySelfEnc cl.idPub (signSelfEnc cl.idPriv cl.idPub
      (encodeBase64Url (aesGcmEncrypt (deriveSharedSecret e cl.storPub) iv msg))
      (encodeBase64Std iv) (pubKeyOf e)) = true := by
    rw [hid]
    exact verifySelfEnc_signSelfEnc_self _ _ _ _ _
  rw [if_pos hv]
  simp only [signSelfEnc]
  rw [decode_encodeBase64Std iv hiv,
    decode_encodeBase64Url _ (aesGcmEncrypt_lt _ _ _)]
  have hsym : deriveSharedSecret cl.storPriv (pubKeyOf e) =
      deriveSharedSecret e cl.storPub := by
    calc deriveSharedSecret cl.storPriv (pubKeyOf e)
        = deriveSharedSecret e (pubKeyOf cl.storPriv) := deriveSharedSecret_symm _ _
      _ = deriveSharedSecret e cl.storPub := by rw [hstor]
  rw [hsym, aesGcmDecrypt_encrypt _ _ _ hm]

/-- For a well-formed client, `encryptToSelf` passes its own self-test and
returns the signed envelope. -/
theorem encryptToSelf_wf (cl : Client) (e : Nat) (iv msg : List Nat)
    (hwf : cl.wellFormed) (hm : ∀ b ∈ msg, b < 256) (hiv : ∀ b ∈ iv, b < 256) :
    encryptToSelf cl e iv msg = .ok (signSelfEnc cl.idPriv cl.idPub
      (encodeBase64Url (aesGcmEncrypt (deriveSharedSecret e cl.storPub) iv msg))
      (encodeBase64Std iv) (pubKeyOf e)) := by
  unfold encryptToSelf
  have hv : verifySelfEnc (signSelfEnc cl.idPriv cl.idPub
      (encodeBase64Url (aesGcmEncrypt (deriveSharedSecret e cl.storPub) iv msg))
      (encodeBase64Std iv) (pubKeyOf e)).jwk (signSelfEnc cl.idPriv cl.idPub
      (encodeBase64Url (aesGcmEncrypt (deriveSharedSecret e cl.storPub) iv msg))
      (encodeBase64Std iv) (pubKeyOf e)) = true := by
    rw [show (signSelfEnc cl.idPriv cl.idPub
      (encodeBase64Url (aesGcmEncrypt (deriveSharedSecret e cl.storPub) iv msg))
      (encodeBase64Std iv) (pubKeyOf e)).jwk = cl.idPub from rfl]
    rw [hwf.1]
    exact verifySelfEnc_signSelfEnc_self _ _ _ _ _
  rw [if_pos hv, decryptFromSelf_signSelfEnc cl e iv msg hwf hm hiv]
  simp

/-- `encryptToSelf` returns only envelopes that its own self-test decrypted
back to the plaintext. -/
theorem encryptToSelf_ok_decrypt (cl : Client) (e : Nat) (iv msg : List Nat)
    (se : SelfEncrypted) (h : encryptToSelf cl e iv msg = .ok se) :
    decryptFromSelf cl se = .ok msg ∧ se.epk = pubKeyOf e ∧ se.jwk = cl.idPub := by
  simp only [encryptToSelf] at h
  split at h
  · split at h
    · rename_i pt hdec
      split at h
      · rename_i hpt
        injection h with h1
        rw [← h1]
        refine ⟨?_, rfl, rfl⟩
        rw [hdec, hpt]
      · simp at h
    · simp at h
  · simp at h

@[simp] theorem lookup_setA_self {α : Type} (k : Nat) (v : α) (l : List (Nat × α)) :
    List.lookup k (setA k v l) = some v := by
  simp [setA, List.lookup]

@[simp] theorem getThreadInfo_setMessageId (st : GridStorage) (k k2 : Nat) (v : List Nat) :
    (st.setMessageId k2 v).getThreadInfo k = st.getThreadInfo k := rfl

@[simp] theorem getThreadInfo_appendMessage (st : GridStorage) (k k2 : Nat) (v : StoredMsg) :
    (st.appendMessage k2 v).getThreadInfo k = st.getThreadInfo k := rfl

@[simp] theorem getThreadInfo_appendThreadIndex (st : GridStorage) (k k2 v : Nat) :
    (st.appendThreadIndex k2 v).getThreadInfo k = st.getThreadInfo k := rfl

@[simp] theorem getThreadInfo_setPublicKey (st : GridStorage) (k k2 v : Nat) :
    (st.setPublicKey k2 v).getThreadInfo k = st.getThreadInfo k := rfl

@[simp] theorem getThreadInfo_setBackup (st : GridStorage) (k k2 : Nat) (v : SelfEncrypted) :
    (st.setBackup k2 v).getThreadInfo k = st.getThreadInfo k := rfl

@[simp] theorem getThreadInfo_setThreadInfo_self (st : GridStorage) (k : Nat) (v : ThreadInfo) :
    (st.setThreadInfo k v).getThreadInfo k = some v := by
  simp [GridStorage.setThreadInfo, GridStorage.getThreadInfo]

@[simp] theorem getBackup_setMessageId (st : GridStorage) (k k2 : Nat) (v : List Nat) :
    (st.setMessageId k2 v).getBackup k = st.getBackup k := rfl

@[simp] theorem getBackup_appendMessage (st : GridStorage) (k k2 : Nat) (v : StoredMsg) :
    (st.appendMessage k2 v).getBackup k = st.getBackup k := rfl

@[simp] theorem getBackup_appendThreadIndex (st : GridStorage) (k k2 v : Nat) :
    (st.appendThreadIndex k2 v).getBackup k = st.getBackup k := rfl

@[simp] theorem getBackup_setPublicKey (st : GridStorage) (k k2 v : Nat) :
    (st.setPublicKey k2 v).getBackup k = st.getBackup k := rfl

@[simp] theorem getBackup_setThreadInfo (st : GridStorage) (k k2 : Nat) (v : ThreadInfo) :
    (st.setThreadInfo k2 v).getBackup k = st.getBackup k := rfl

@[simp] theorem getBackup_setBackup_self (st : GridStorage) (k : Nat) (v : SelfEncrypted) :
    (st.setBackup k v).getBackup k = some v := by
  simp [GridStorage.setBackup, GridStorage.getBackup]

@[simp] theorem getMessageId_setMessageId_self (st : GridStorage) (k : Nat) (v : List Nat) :
    (st.setMessageId k v).getMessageId k = some v := by
  simp [GridStorage.setMessageId, GridStorage.getMessageId]

@[simp] theorem messageIds_appendMessage (st : GridStorage) (k : Nat) (v : StoredMsg) :
    (st.appendMessage k v).messageIds = st.messageIds := rfl

@[simp] theorem messageIds_setMessageId (st : GridStorage) (k : Nat) (v : List Nat) :
    (st.setMessageId k v).messageIds = setA k v st.messageIds := rfl

@[simp] theorem messageLogs_setMessageId (st : GridStorage) (k : Nat) (v : List Nat) :
    (st.setMessageId k v).messageLogs = st.messageLogs := rfl

theorem makeThreadKeys_ok_inv (cl : Client) (tPriv ePriv : Nat) (ivK : List Nat)
    (st st1 : GridStorage) (keys : Nat × Nat × Nat)
    (h : makeThreadKeys cl tPriv ePriv ivK st = (st1, .ok keys)) :
    ∃ bk, encryptToSelf cl ePriv ivK (encodeKeyPair (pubKeyOf tPriv) tPriv) = .ok bk ∧
      st1 = st.setBackup (getJWKthumbprint (pubKeyOf tPriv)) bk ∧
      keys = (getJWKthumbprint (pubKeyOf tPriv), pubKeyOf tPriv, tPriv) := by
  simp only [makeThreadKeys] at h
  split at h
  · rename_i bk heq
    injection h with h1 h2
    injection h2 with h3
    exact ⟨bk, heq, h1.symm, h3.symm⟩
  · injection h with h1 h2
    simp at h2

theorem startThread_ok_inv (cl : Client) (si : SignedInvitation) (theirEPK theirSig : Nat)
    (mid : List Nat) (myTp : Nat) (st st2 : GridStorage) (tp : Nat)
    (h : startThread cl si theirEPK theirSig mid myTp st = (st2, .ok tp)) :
    tp = myTp ∧
    st2 = ((((st.setPublicKey (getJWKthumbprint theirSig) theirSig).setThreadInfo myTp
      ⟨myTp, theirEPK, si, theirSig⟩).appendThreadIndex cl.thumbprint myTp).appendMessage
      myTp (.invite si)).setMessageId myTp mid := by
  unfold startThread at h
  split at h
  · injection h with h1 h2
    simp at h2
  · injection h with h1 h2
    injection h2 with h3
    exact ⟨h3.symm, h1.symm⟩

/-- The first reply produced by `replyToInvitation` carries the replier's
identity public JWK in the header and the fresh thread public key in
`payload.epk`. -/
theorem replyToInvitation_ok_shape (cl : Client) (inv : SignedInvitation) (m : List Nat)
    (tPriv ePriv : Nat) (ivK ivM : List Nat) (st st' : GridStorage) (msg : ReplyJWS)
    (h : replyToInvitation cl inv m tPriv ePriv ivK ivM st = (st', .ok msg)) :
    msg.jwk = some cl.idPub ∧ msg.epk = some (pubKeyOf tPriv) := by
  unfold replyToInvitation at h
  split at h
  · obtain ⟨st1, keys, hmk, h2⟩ := stepBind_ok_inv _ _ _ _ h
    obtain ⟨st2, tp, hstart, h3⟩ := stepBind_ok_inv _ _ _ _ h2
    obtain ⟨bk, hbk, hst1, hkeys⟩ := makeThreadKeys_ok_inv _ _ _ _ _ _ _ hmk
    subst hkeys
    obtain ⟨htp, hst2⟩ := startThread_ok_inv _ _ _ _ _ _ _ _ _ hstart
    subst htp
    subst hst1
    subst hst2
    obtain ⟨se, stored, ti, r, hrts, hmid, hti, hmsg, hak⟩ :=
      replyToThread_ok_inv _ _ _ _ _ _ _ _ h3
    obtain ⟨hdec, _, _⟩ := encryptToSelf_ok_decrypt _ _ _ _ _ hbk
    unfold readThreadSecret at hrts
    simp only [getThreadInfo_setMessageId, getThreadInfo_appendMessage,
      getThreadInfo_appendThreadIndex, getThreadInfo_setThreadInfo_self] at hrts
    simp only [getBackup_setMessageId, getBackup_appendMessage,
      getBackup_appendThreadIndex, getBackup_setThreadInfo, getBackup_setPublicKey,
      getBackup_setBackup_self] at hrts
    simp only [hdec] at hrts
    rw [decodeKeyPair_encodeKeyPair (pubKeyOf tPriv) tPriv
      (natToBytes_length_lt _ (pubKeyOf_lt_256 tPriv))] at hrts
    injection hrts with hrts1 hrts2
    injection hrts2 with hrts3
    subst hmsg
    refine ⟨rfl, ?_⟩
    simp only [signReply, if_true]
    rw [← hrts3]
  · injection h with h1 h2
    simp at h2

theorem startThread_err (cl : Client) (si : SignedInvitation) (theirEPK theirSig : Nat)
    (mid : List Nat) (myTp : Nat) (st st2 : GridStorage) (e : Err)
    (h : startThread cl si theirEPK theirSig mid myTp st = (st2, .error e)) :
    e = .threadKeyNotFound ∧ st2 = st := by
  unfold startThread at h
  split at h
  · injection h with h1 h2
    injection h2 with h3
    exact ⟨h3.symm, h1.symm⟩
  · injection h with h1 h2
    simp at h2

@[simp] theorem getMessageId_appendMessage (st : GridStorage) (k k2 : Nat) (v : StoredMsg) :
    (st.appendMessage k2 v).getMessageId k = st.getMessageId k := rfl

theorem appendThreadKnown_ok_state (cl : Client) (msg : ReplyJWS) (tp : Nat)
    (st st2 : GridStorage) (r : Nat × List Nat)
    (h : appendThreadKnown cl msg tp st = (st2, .ok r)) :
    st2 = st.appendMessage tp (.reply msg) := by
  unfold appendThreadKnown at h
  split at h
  · injection h with h1 h2
    simp at h2
  · split at h
    · exact appendThreadDecrypt_ok _ _ _ _ _ _ h
    · split at h
      · injection h with h1 h2
        simp at h2
      · split at h
        · exact appendThreadDecrypt_ok _ _ _ _ _ _ h
        · injection h with h1 h2
          simp at h2

/-! ## The claims -/

/-- C1: for every byte string `m` (and every fresh ephemeral key and
12-byte IV), `decryptFromSelf (encryptToSelf m) = m` for a well-formed
client, even though `encryptToSelf` emits the IV as standard base64 while
`decryptFromSelf` decodes the `iv` field as base64url — the decoder tolerates
both encodings. -/
theorem whispergrid_C1_selfEncryption_roundTrip (cl : Client) (e : Nat) (iv m : List Nat)
    (hwf : cl.wellFormed) (hm : ∀ b ∈ m, b < 256) (hiv : ∀ b ∈ iv, b < 256) :
    (encryptToSelf cl e iv m).bind (decryptFromSelf cl) = .ok m := by
  rw [encryptToSelf_wf cl e iv m hwf hm hiv]
  simp only [Except.bind]
  exact decryptFromSelf_signSelfEnc cl e iv m hwf hm hiv

/-- C1 witness: a concrete round trip. -/
theorem whispergrid_C1_witness :
    wgAlice.wellFormed ∧ (∀ b ∈ [104, 105], b < 256) ∧ (∀ b ∈ wgIv1, b < 256) ∧
    (encryptToSelf wgAlice 9 wgIv1 [104, 105]).bind (decryptFromSelf wgAlice) =
      .ok [104, 105] := by
  refine ⟨by decide, by decide, by decide, ?_⟩
  exact whispergrid_C1_selfEncryption_roundTrip wgAlice 9 wgIv1 [104, 105] (by decide)
    (by decide) (by decide)

/-- C3: whenever `replyToThread` returns a JWS, that JWS verifies under the
client's identity public key; contrapositively the call fails (in its
self-ingestion via `appendThread`) whenever that verification would fail.
The explicit post-sign `invariant(verifyJWS(...))` at lines 411–414 is
vacuous (the promise is not awaited), but the final `appendThread` re-verifies
the message with the identity key on every path. -/
theorem whispergrid_C3_selfVerify (cl : Client) (tp : Nat) (m : List Nat) (ss : Bool)
    (iv : List Nat) (st st' : GridStorage) (msg : ReplyJWS)
    (h : replyToThread cl tp m ss iv st = (st', .ok msg)) :
    verifyReplyWith cl.idPub msg = true := by
  obtain ⟨se, stored, ti, r, hrts, hmid, hti, hmsg, hak⟩ :=
    replyToThread_ok_inv _ _ _ _ _ _ _ _ h
  refine appendThreadKnown_ok_verify cl msg tp _ st' r ti hti ?_ ?_ hak
  · rw [hmsg]
    exact rfl
  · intro k hk
    rw [hmsg] at hk
    cases ss
    · simp [signReply] at hk
    · simp [signReply] at hk
      exact hk.symm

set_option maxRecDepth 40000 in
/-- C3 witness: a concrete successful `replyToThread` whose JWS verifies
under the identity public key. -/
theorem whispergrid_C3_witness :
    replyToThread wgBob 25 [111, 107] false wgIv5 wgStB2 = (wgStB3, .ok wgR3) ∧
    verifyReplyWith wgBob.idPub wgR3 = true := by
  have h : replyToThread wgBob 25 [111, 107] false wgIv5 wgStB2 = (wgStB3, .ok wgR3) := by
    decide
  exact ⟨h, whispergrid_C3_selfVerify wgBob 25 [111, 107] false wgIv5 wgStB2 wgStB3 wgR3 h⟩

/-- C8: the first reply produced by `replyToInvitation` has `header.jwk` set
to the replier's identity public JWK and `payload.epk` set to the replier's
ephemeral thread public key; `appendThread` rejects a first reply (header
with `jwk`, no known thread) lacking `payload.epk` with the
`MalformedFirstReply` error; and replies produced by `replyToThread` without
`selfSign` carry neither field. -/
theorem whispergrid_C8_firstReplyShape :
    (∀ (cl : Client) (inv : SignedInvitation) (m : List Nat) (tPriv ePriv : Nat)
        (ivK ivM : List Nat) (st st' : GridStorage) (msg : ReplyJWS),
        replyToInvitation cl inv m tPriv ePriv ivK ivM st = (st', .ok msg) →
        msg.jwk = some cl.idPub ∧ msg.epk = some (pubKeyOf tPriv)) ∧
    (∀ (cl : Client) (msg : ReplyJWS) (st : GridStorage) (k : Nat),
        msg.jwk = some k → msg.epk = none →
        appendThread cl msg none st = (st, .error .firstMessageNeedsEpk)) ∧
    (∀ (cl : Client) (tp : Nat) (m iv : List Nat) (st st' : GridStorage) (msg : ReplyJWS),
        replyToThread cl tp m false iv st = (st', .ok msg) →
        msg.jwk = none ∧ msg.epk = none) := by
  refine ⟨fun cl inv m tPriv ePriv ivK ivM st st' msg h =>
    replyToInvitation_ok_shape _ _ _ _ _ _ _ _ _ _ h, ?_, ?_⟩
  · intro cl msg st k hk he
    simp only [appendThread, hk, he]
  · intro cl tp m iv st st' msg h
    obtain ⟨se, stored, ti, r, hrts, hmid, hti, hmsg, hak⟩ :=
      replyToThread_ok_inv _ _ _ _ _ _ _ _ h
    rw [hmsg]
    constructor <;> simp [signReply]

set_option maxRecDepth 40000 in
/-- C8 witness: Bob's concrete first reply has `header.jwk = Bob's identity
public JWK` and `payload.epk = Bob's thread public key`; a first reply lacking
`epk` is rejected; Bob's later reply carries neither field. -/
theorem whispergrid_C8_witness :
    (replyToInvitation wgBob wgInv [104, 105] 10 11 wgIv2 wgIv3 wgSt0 =
      (wgStB1, .ok wgR1) ∧ wgR1.jwk = some wgBob.idPub ∧ wgR1.epk = some (pubKeyOf 10)) ∧
    (appendThread wgAlice { wgR1 with epk := none } none wgSt1 =
      (wgSt1, .error .firstMessageNeedsEpk)) ∧
    (replyToThread wgBob 25 [111, 107] false wgIv5 wgStB2 = (wgStB3, .ok wgR3) ∧
      wgR3.jwk = none ∧ wgR3.epk = none) := by
  have h1 : replyToInvitation wgBob wgInv [104, 105] 10 11 wgIv2 wgIv3 wgSt0 =
      (wgStB1, .ok wgR1) := by decide
  have h3 : replyToThread wgBob 25 [111, 107] false wgIv5 wgStB2 = (wgStB3, .ok wgR3) := by
    decide
  refine ⟨⟨h1, whispergrid_C8_firstReplyShape.1 wgBob wgInv [104, 105] 10 11 wgIv2 wgIv3
    wgSt0 wgStB1 wgR1 h1⟩, ?_, h3, whispergrid_C8_firstReplyShape.2.2 wgBob 25 [111, 107]
    wgIv5 wgStB2 wgStB3 wgR3 h3⟩
  exact whispergrid_C8_firstReplyShape.2.1 wgAlice { wgR1 with epk := none } wgSt1 246
    (by decide) (by decide)

/-- C9 counterexample: a first reply whose header carries a `jwk` but whose
payload lacks `epk` fails with the `MalformedFirstReply` error even though no
invitation is stored under `payload.re` — not with `UnknownInvitation` as the
claim states. -/
theorem whispergrid_C9_counterexample :
    wgSt0.getInvitation wgR2.re = none ∧
    appendThread wgBob { wgR2 with jwk := some 246 } none wgSt0 =
      (wgSt0, .error .firstMessageNeedsEpk) ∧
    Err.firstMessageNeedsEpk ≠ Err.invitationNotFound := by
  refine ⟨by decide, by decide, by decide⟩

/-- C9 amended: with no `threadThumbprint`, a message without `jwk` whose
`payload.re` resolves to no thread fails `UnknownThread`, and a message with
`jwk` *and* `epk` whose `payload.re` resolves to no invitation fails
`UnknownInvitation`; in each case storage is unchanged. -/
theorem whispergrid_C9_amended :
    (∀ (cl : Client) (msg : ReplyJWS) (st : GridStorage),
        msg.jwk = none → st.getThreadInfo msg.re = none →
        appendThread cl msg none st = (st, .error .threadNotFound)) ∧
    (∀ (cl : Client) (msg : ReplyJWS) (st : GridStorage) (k e : Nat),
        msg.jwk = some k → msg.epk = some e → st.getInvitation msg.re = none →
        appendThread cl msg none st = (st, .error .invitationNotFound)) := by
  constructor
  · intro cl msg st hjwk hti
    simp only [appendThread, hjwk, hti]
    simp
  · intro cl msg st k e hjwk hepk hinv
    simp only [appendThread, hjwk, hepk, hinv]

/-- C9 witness: both amended branches at concrete inputs. -/
theorem whispergrid_C9_witness :
    appendThread wgAlice wgR2 none wgSt0 = (wgSt0, .error .threadNotFound) ∧
    appendThread wgAlice wgR1 none wgSt0 = (wgSt0, .error .invitationNotFound) := by
  constructor
  · exact whispergrid_C9_amended.1 wgAlice wgR2 wgSt0 (by decide) (by decide)
  · exact whispergrid_C9_amended.2 wgAlice wgR1 wgSt0 246 25 (by decide) (by decide)
      (by decide)

set_option maxRecDepth 40000 in
/-- C2 counterexample: a complete honest run — Alice invites (id 5), Bob
replies (id 6), Alice ingests and replies (id 7), Bob ingests and replies —
produces a fourth message that again carries id 7, because `appendThread`
never advances the recipient's stored `message-id`.  Alice ingests it, and
her thread log reads 5, 6, 7, 7: the parsed `messageId` values along the
log are not strictly increasing by 1. -/
theorem whispergrid_C2_counterexample :
    createInvitation wgAlice 8 9 wgIv1 5 none none wgSt0 = (wgSt1, .ok wgInv) ∧
    replyToInvitation wgBob wgInv [104, 105] 10 11 wgIv2 wgIv3 wgSt0 =
      (wgStB1, .ok wgR1) ∧
    appendThread wgAlice wgR1 none wgSt1 = (wgSt2, .ok (175, [104, 105])) ∧
    replyToThread wgAlice 175 [121, 111] false wgIv4 wgSt2 = (wgSt3, .ok wgR2) ∧
    appendThread wgBob wgR2 none wgStB1 = (wgStB2, .ok (25, [121, 111])) ∧
    replyToThread wgBob 25 [111, 107] false wgIv5 wgStB2 = (wgStB3, .ok wgR3) ∧
    appendThread wgAlice wgR3 none wgSt3 = (wgSt4, .ok (175, [111, 107])) ∧
    (wgSt4.getMessages 175).map (List.map storedMsgId) =
      some [some 5, some 6, some 7, some 7] ∧
    idsIncrementByOne [some 5, some 6, some 7, some 7] = false := by
  refine ⟨by decide, by decide, by decide, by decide, by decide, by decide, by decide,
    by decide, by decide⟩

/-- C2 amended: the producing side's `replyToThread` emits and stores exactly
the incremented id — the message carries `message-id + 1` and the stored
counter strictly increases — but `appendThread` does not advance the
recipient's counter, so the cross-side full-log property fails (see the
counterexample). -/
theorem whispergrid_C2_amended (cl : Client) (tp : Nat) (m : List Nat) (ss : Bool)
    (iv : List Nat) (st st' : GridStorage) (msg : ReplyJWS) (stored : List Nat) (n : Int)
    (hmid : st.getMessageId tp = some stored)
    (hn : jsParseIntHex stored = some n)
    (h : replyToThread cl tp m ss iv st = (st', .ok msg)) :
    msg.messageId = jsNumberToString16 (some (n + 1)) ∧
    st'.getMessageId tp = some (jsNumberToString16 (some (n + 1))) ∧
    jsParseIntHex (jsNumberToString16 (some (n + 1))) = some (n + 1) ∧ n < n + 1 := by
  obtain ⟨se, stored0, ti, r, hrts, hmid0, hti, hmsg, hak⟩ :=
    replyToThread_ok_inv _ _ _ _ _ _ _ _ h
  rw [hmid] at hmid0
  injection hmid0 with hs0
  subst hs0
  have hnext : (jsParseIntHex stored).map (· + 1) = some (n + 1) := by
    rw [hn]
    rfl
  refine ⟨?_, ?_, jsParseIntHex_toString (n + 1), by omega⟩
  · rw [hmsg]
    simp [signReply, hnext]
  · have hstate := appendThreadKnown_ok_state _ _ _ _ _ _ hak
    rw [hstate]
    simp only [getMessageId_appendMessage, getMessageId_setMessageId_self, hnext]

set_option maxRecDepth 40000 in
/-- C2 witness: Bob's second reply increments his stored id 6 to 7 and stores
it. -/
theorem whispergrid_C2_witness :
    wgStB2.getMessageId 25 = some [54] ∧ jsParseIntHex [54] = some 6 ∧
    wgR3.messageId = jsNumberToString16 (some 7) ∧
    wgStB3.getMessageId 25 = some (jsNumberToString16 (some 7)) := by
  have h : replyToThread wgBob 25 [111, 107] false wgIv5 wgStB2 = (wgStB3, .ok wgR3) := by
    decide
  have h2 := whispergrid_C2_amended wgBob 25 [111, 107] false wgIv5 wgStB2 wgStB3 wgR3
    [54] 6 (by decide) (by decide) h
  exact ⟨by decide, by decide, h2.1, h2.2.1⟩

set_option maxRecDepth 40000 in
/-- C4 counterexample: with a mismatched identity key pair the reply's
post-sign self-verification fails (the engine surfaces this as the
signer-mismatch error from the self-ingestion), yet the stored `message-id`
for the thread has already been incremented from 5 (`"5"` = `[53]`) to 6
(`"6"` = `[54]`) — the claim's "the stored message-id ... is unchanged from
its value before the call" is false. -/
theorem whispergrid_C4_counterexample :
    replyToThread wgMallory 175 [104] false wgIv2 wgStM =
      (wgStM.setMessageId 175 [54], .error .signerMismatch) ∧
    wgStM.getMessageId 175 = some [53] ∧
    (wgStM.setMessageId 175 [54]).getMessageId 175 = some [54] ∧
    (some [54] : Option (List Nat)) ≠ some [53] := by
  refine ⟨by decide, by decide, by decide, by decide⟩

/-- C4 amended: a reply that fails after signing (decrypt-mismatch, or any
verification/decryption failure inside the self-ingestion `appendThread`)
leaves the thread's log unchanged, but the incremented `message-id` was
committed before the self-tests and persists. -/
theorem whispergrid_C4_amended (cl : Client) (tp : Nat) (m : List Nat) (ss : Bool)
    (iv : List Nat) (st st' : GridStorage) (e : Err) (stored : List Nat) (n : Int)
    (hmid : st.getMessageId tp = some stored)
    (hn : jsParseIntHex stored = some n)
    (h : replyToThread cl tp m ss iv st = (st', .error e))
    (he : e = .decryptMismatch ∨ e = .unableToDeterminePublicKey ∨ e = .signerMismatch ∨
      e = .appendDecryptFailed) :
    st' = st.setMessageId tp (jsNumberToString16 (some (n + 1))) ∧
    st'.getMessageId tp = some (jsNumberToString16 (some (n + 1))) ∧
    st'.messageLogs = st.messageLogs := by
  obtain ⟨stored0, hmid0, hst⟩ := replyToThread_err_inv _ _ _ _ _ _ _ _ h he
  rw [hmid] at hmid0
  injection hmid0 with hs0
  subst hs0
  have hnext : (jsParseIntHex stored).map (· + 1) = some (n + 1) := by
    rw [hn]
    rfl
  rw [hnext] at hst
  subst hst
  exact ⟨rfl, by simp only [getMessageId_setMessageId_self], rfl⟩

set_option maxRecDepth 40000 in
/-- C4 witness: the amended claim at the mismatched-client run. -/
theorem whispergrid_C4_witness :
    replyToThread wgMallory 175 [104] false wgIv2 wgStM =
      (wgStM.setMessageId 175 [54], .error .signerMismatch) ∧
    (wgStM.setMessageId 175 [54]).getMessageId 175 =
      some (jsNumberToString16 (some 6)) ∧
    (wgStM.setMessageId 175 [54]).messageLogs = wgStM.messageLogs := by
  have h : replyToThread wgMallory 175 [104] false wgIv2 wgStM =
      (wgStM.setMessageId 175 [54], .error .signerMismatch) := by decide
  have h2 := whispergrid_C4_amended wgMallory 175 [104] false wgIv2 wgStM
    (wgStM.setMessageId 175 [54]) .signerMismatch [53] 5 (by decide) (by decide) h
    (Or.inr (Or.inr (Or.inl rfl)))
  exact ⟨h, h2.2.1, h2.2.2⟩

set_option maxRecDepth 40000 in
/-- C5 counterexample: in the echo thread, `payload.re` equals
`thread.myThumbprint` (both 175), yet the message is *not* verified with
`thread.theirSignature` (246) — that verification is false — because the
`thumbprint(theirEPK)` comparison takes priority in the code: the message is
verified with the client's own identity key and accepted. -/
theorem whispergrid_C5_counterexample :
    wgEchoMsg.re = wgTIEcho.myThumbprint ∧
    wgStEcho.getThreadInfo 175 = some wgTIEcho ∧
    verifyReplyWith wgTIEcho.theirSignature wgEchoMsg = false ∧
    appendThreadKnown wgAlice wgEchoMsg 175 wgStEcho =
      (wgStEcho.appendMessage 175 (.reply wgEchoMsg), .ok (175, [104])) := by
  refine ⟨by decide, by decide, by decide, by decide⟩

/-- C5 amended: for a message without embedded `jwk` in a known thread, the
`thumbprint(theirEPK)` comparison takes priority: if `payload.re` equals it,
verification uses the client's own identity key; otherwise, if `payload.re`
equals `thread.myThumbprint`, verification uses `thread.theirSignature`; else
the call fails `UnverifiedSigner`.  A failed verification yields the
signer-mismatch (`BadSignature`) error. -/
theorem whispergrid_C5_amended (cl : Client) (msg : ReplyJWS) (tp : Nat)
    (st : GridStorage) (ti : ThreadInfo)
    (hti : st.getThreadInfo tp = some ti) (hjwk : msg.jwk = none) :
    (msg.re = getJWKthumbprint ti.theirEPK →
        (verifyReplyWith cl.idPub msg = false →
            appendThreadKnown cl msg tp st = (st, .error .signerMismatch)) ∧
        (verifyReplyWith cl.idPub msg = true →
            appendThreadKnown cl msg tp st = appendThreadDecrypt cl msg tp st)) ∧
    (msg.re ≠ getJWKthumbprint ti.theirEPK → msg.re = ti.myThumbprint →
        (verifyReplyWith ti.theirSignature msg = false →
            appendThreadKnown cl msg tp st = (st, .error .signerMismatch)) ∧
        (verifyReplyWith ti.theirSignature msg = true →
            appendThreadKnown cl msg tp st = appendThreadDecrypt cl msg tp st)) ∧
    (msg.re ≠ getJWKthumbprint ti.theirEPK → msg.re ≠ ti.myThumbprint →
        appendThreadKnown cl msg tp st = (st, .error .unableToDeterminePublicKey)) := by
  refine ⟨?_, ?_, ?_⟩
  · intro hre
    have hsel : selectVerifier cl ti msg = some cl.idPub := by
      rw [selectVerifier_none_jwk cl ti msg hjwk, if_pos hre]
    constructor
    · intro hv
      rw [appendThreadKnown_sel_some cl msg tp st ti cl.idPub hti hjwk hsel, hv]
      simp
    · intro hv
      rw [appendThreadKnown_sel_some cl msg tp st ti cl.idPub hti hjwk hsel, hv]
      simp
  · intro hre hre2
    have hsel : selectVerifier cl ti msg = some ti.theirSignature := by
      rw [selectVerifier_none_jwk cl ti msg hjwk, if_neg hre, if_pos hre2]
    constructor
    · intro hv
      rw [appendThreadKnown_sel_some cl msg tp st ti ti.theirSignature hti hjwk hsel, hv]
      simp
    · intro hv
      rw [appendThreadKnown_sel_some cl msg tp st ti ti.theirSignature hti hjwk hsel, hv]
      simp
  · intro hre hre2
    have hsel : selectVerifier cl ti msg = none := by
      rw [selectVerifier_none_jwk cl ti msg hjwk, if_neg hre, if_neg hre2]
    exact appendThreadKnown_sel_none cl msg tp st ti hti hjwk hsel

set_option maxRecDepth 40000 in
/-- C5 witness: a message addressed to neither thumbprint fails
`UnverifiedSigner`. -/
theorem whispergrid_C5_witness :
    appendThreadKnown wgAlice { wgEchoMsg with re := 99 } 175 wgStEcho =
      (wgStEcho, .error .unableToDeterminePublicKey) := by
  exact (whispergrid_C5_amended wgAlice { wgEchoMsg with re := 99 } 175 wgStEcho
    wgTIEcho (by decide) (by decide)).2.2 (by decide) (by decide)

/-- C6: with no thread thumbprint, an embedded-`jwk` message whose payload
carries `epk`, addressed to a stored (and verifying) invitation, fails
`OutOfOrder` — with storage untouched — unless its `messageId` parses to the
invitation's `messageId` plus 1; and when the sequence check passes the call
never fails `OutOfOrder`, so the thread is started only in that case. -/
theorem whispergrid_C6_sequenceCheck (cl : Client) (msg : ReplyJWS) (st : GridStorage)
    (k e : Nat) (inv : SignedInvitation)
    (hjwk : msg.jwk = some k) (hepk : msg.epk = some e)
    (hinv : st.getInvitation msg.re = some inv) (hval : verifyInv inv.jwk inv = true) :
    (seqCheck msg.messageId inv.messageId = false →
        appendThread cl msg none st = (st, .error .outOfOrder)) ∧
    (seqCheck msg.messageId inv.messageId = true →
        ∀ st' r, appendThread cl msg none st = (st', r) → r ≠ .error .outOfOrder) := by
  constructor
  · intro hseq
    simp only [appendThread, hjwk, hepk, hinv, hval, hseq]
    simp
  · intro hseq st' r happ hr
    subst hr
    simp only [appendThread, hjwk, hepk, hinv, hval, hseq, if_true] at happ
    rcases stepBind_err_inv _ _ _ _ happ with hc | ⟨st0, tp, hstart, hres⟩
    · obtain ⟨he0, _⟩ := startThread_err _ _ _ _ _ _ _ _ _ hc
      simp at he0
    · obtain ⟨_, hne, _, _⟩ := appendThreadKnown_err _ _ _ _ _ _ hres
      exact hne rfl

/-- C6 witness: a reply with id 8 to an invitation with id 5 is rejected
`OutOfOrder` with storage unchanged. -/
theorem whispergrid_C6_witness :
    seqCheck [56] [53] = false ∧
    appendThread wgAlice { wgR1 with messageId := [56] } none wgSt1 =
      (wgSt1, .error .outOfOrder) := by
  have h := whispergrid_C6_sequenceCheck wgAlice { wgR1 with messageId := [56] } wgSt1
    246 25 wgInv (by decide) (by decide) (by decide) (by decide)
  exact ⟨by decide, h.1 (by decide)⟩

set_option maxRecDepth 40000 in
/-- C7 counterexample: with the stored id at 4503599627370495 the incremented
id 4503599627370496 reaches `MAX_MESSAGE_ID = Number.MAX_SAFE_INTEGER / 2`
(2 · 4503599627370496 > 9007199254740991), yet `replyToThread` succeeds and
stores it — the claim that the call fails is false. -/
theorem whispergrid_C7_counterexample :
    jsParseIntHex (List.replicate 13 102) = some 4503599627370495 ∧
    2 * 4503599627370496 > 9007199254740991 ∧
    replyToThread wgAlice 175 [104] false wgIv4 wgStBig =
      ((wgStBig.setMessageId 175 (49 :: List.replicate 13 48)).appendMessage 175
        (.reply wgBigMsg), .ok wgBigMsg) ∧
    ((wgStBig.setMessageId 175 (49 :: List.replicate 13 48)).appendMessage 175
      (.reply wgBigMsg)).getMessageId 175 = some (49 :: List.replicate 13 48) := by
  refine ⟨by decide, by decide, by decide, by decide⟩

/-- C7 amended: `replyToThread` computes the next id as the stored id plus 1
with no wraparound and stores it unconditionally — there is no failure when
the incremented id reaches or exceeds `MAX_MESSAGE_ID` (no bound on `n`
appears below). -/
theorem whispergrid_C7_amended (cl : Client) (tp : Nat) (m : List Nat) (ss : Bool)
    (iv : List Nat) (st st' : GridStorage) (msg : ReplyJWS) (stored : List Nat) (n : Int)
    (hmid : st.getMessageId tp = some stored)
    (hn : jsParseIntHex stored = some n)
    (h : replyToThread cl tp m ss iv st = (st', .ok msg)) :
    st'.getMessageId tp = some (jsNumberToString16 (some (n + 1))) ∧
    msg.messageId = jsNumberToString16 (some (n + 1)) := by
  obtain ⟨se, stored0, ti, r, hrts, hmid0, hti, hmsg, hak⟩ :=
    replyToThread_ok_inv _ _ _ _ _ _ _ _ h
  rw [hmid] at hmid0
  injection hmid0 with hs0
  subst hs0
  have hnext : (jsParseIntHex stored).map (· + 1) = some (n + 1) := by
    rw [hn]
    rfl
  constructor
  · have hstate := appendThreadKnown_ok_state _ _ _ _ _ _ hak
    rw [hstate]
    simp only [getMessageId_appendMessage, getMessageId_setMessageId_self, hnext]
  · rw [hmsg]
    simp [signReply, hnext]

set_option maxRecDepth 40000 in
/-- C7 witness: the amended claim at the overflow boundary — the stored id
becomes 4503599627370496 ≥ MAX_MESSAGE_ID with no failure. -/
theorem whispergrid_C7_witness :
    replyToThread wgAlice 175 [104] false wgIv4 wgStBig =
      ((wgStBig.setMessageId 175 (49 :: List.replicate 13 48)).appendMessage 175
        (.reply wgBigMsg), .ok wgBigMsg) ∧
    ((wgStBig.setMessageId 175 (49 :: List.replicate 13 48)).appendMessage 175
      (.reply wgBigMsg)).getMessageId 175 =
      some (jsNumberToString16 (some 4503599627370496)) ∧
    wgBigMsg.messageId = jsNumberToString16 (some 4503599627370496) := by
  have h : replyToThread wgAlice 175 [104] false wgIv4 wgStBig =
      ((wgStBig.setMessageId 175 (49 :: List.replicate 13 48)).appendMessage 175
        (.reply wgBigMsg), .ok wgBigMsg) := by decide
  have h2 := whispergrid_C7_amended wgAlice 175 [104] false wgIv4 wgStBig _ wgBigMsg
    (List.replicate 13 102) 4503599627370495 (by decide) (by decide) h
  exact ⟨h, h2.1, h2.2⟩

/-- C10: with a known thread thumbprint, a message whose header embeds a
`jwk` that does not verify its signature fails with the
unable-to-determine-public-key error (the `theirSignature` selection always
yields no key for such messages); and conversely the addressee-based
verifier's signer-mismatch failure is only ever produced for messages whose
header has no embedded `jwk`, on any path of `appendThread`. -/
theorem whispergrid_C10_unverifiedSigner :
    (∀ (cl : Client) (msg : ReplyJWS) (tp : Nat) (st : GridStorage) (ti : ThreadInfo)
        (k : Nat), st.getThreadInfo tp = some ti → msg.jwk = some k →
        verifyReplyWith k msg = false →
        appendThreadKnown cl msg tp st = (st, .error .unableToDeterminePublicKey)) ∧
    (∀ (cl : Client) (msg : ReplyJWS) (tpOpt : Option Nat) (st st' : GridStorage),
        appendThread cl msg tpOpt st = (st', .error .signerMismatch) →
        msg.jwk = none) := by
  constructor
  · intro cl msg tp st ti k hti hk hv
    exact appendThreadKnown_embedded_bad cl msg tp st ti k hti hk hv
  · intro cl msg tpOpt st st' h
    cases tpOpt with
    | some tp =>
        simp only [appendThread] at h
        exact appendThreadKnown_signerMismatch _ _ _ _ _ h
    | none =>
        cases hjwk : msg.jwk with
        | none => rfl
        | some k =>
            simp only [appendThread, hjwk] at h
            split at h
            · injection h with h1 h2
              injection h2 with h3
              simp at h3
            · split at h
              · injection h with h1 h2
                injection h2 with h3
                simp at h3
              · split at h
                · split at h
                  · rcases stepBind_err_inv _ _ _ _ h with hc | ⟨st0, tp, hstart, hres⟩
                    · obtain ⟨he0, _⟩ := startThread_err _ _ _ _ _ _ _ _ _ hc
                      simp at he0
                    · have hj := appendThreadKnown_signerMismatch _ _ _ _ _ hres
                      rw [hjwk] at hj
                      simp at hj
                  · injection h with h1 h2
                    injection h2 with h3
                    simp at h3
                · injection h with h1 h2
                  injection h2 with h3
                  simp at h3

set_option maxRecDepth 40000 in
/-- C10 witness: in Alice's established thread, a reply carrying an embedded
`jwk` of 99 that does not verify fails unable-to-determine-public-key; and a
signer-mismatch failure is exhibited only by a bare-header message. -/
theorem whispergrid_C10_witness :
    appendThreadKnown wgAlice { wgR1 with jwk := some 99 } 175 wgSt2 =
      (wgSt2, .error .unableToDeterminePublicKey) ∧
    ({ wgR1 with jwk := none, sig := 0 } : ReplyJWS).jwk = none := by
  constructor
  · exact whispergrid_C10_unverifiedSigner.1 wgAlice { wgR1 with jwk := some 99 } 175
      wgSt2 wgTIA 99 (by decide) (by decide) (by decide)
  · exact whispergrid_C10_unverifiedSigner.2 wgAlice { wgR1 with jwk := none, sig := 0 }
      (some 175) wgSt2 wgSt2 (by decide)
